import Mathlib

/-!
A formal model of the keymaster core described by the repository
specification: the authorization model, the key-blob codec, the
begin/update/finish/abort operation state machine and the begin-time
policy engine, together with proofs of the testable properties the
specification states about them.

The repository ships only the test suite and a key-class header; the
core implementation (the service entry points, the policy engine, the
blob codec and the primitive adapters) lives outside the sources at
hand, so the definitions below are modelled from the specification,
with the test suite as the authority on observable behaviour wherever
the two disagree.  The OpenSSL cryptographic primitives are explicitly
out of scope of the specification ("assumed available through a narrow
cryptographic primitive interface"), and are idealized here:
length-preserving ciphers become keyed byte-stream bijections, and the
AES-GCM authenticator becomes a collision-free (injective) encoding of
the authenticated data, which is the standard ideal model of a MAC.
Bytes are modelled as natural numbers; genuine byte values stay below
256, while ideal authenticator "bytes" may exceed it (the injectivity
of the ideal tag cannot fit in 128 bits, and nothing in the modelled
core depends on the bound).
-/

namespace Keymaster

/-- Error codes returned by the service entry points (the subset the
specification and tests exercise). -/
inductive KmError where
  | ok
  | outputParameterNull
  | unsupportedAlgorithm
  | unsupportedPurpose
  | unsupportedKeySize
  | unsupportedPaddingMode
  | unsupportedDigest
  | unsupportedKeyFormat
  | unsupportedMacLength
  | invalidNonce
  | callerNonceProhibited
  | incompatiblePurpose
  | incompatibleDigest
  | incompatiblePaddingMode
  | incompatibleBlockMode
  | importParameterMismatch
  | invalidInputLength
  | invalidArgument
  | invalidKeyBlob
  | verificationFailed
  | invalidOperationHandle
  | tooManyOperations
  | unknownError
  deriving DecidableEq, Repr

/-- The four operation purposes. -/
inductive Purpose where
  | sign
  | verify
  | encrypt
  | decrypt
  deriving DecidableEq, Repr

/-- The supported algorithm families. -/
inductive Algorithm where
  | rsa
  | ec
  | aes
  | hmac
  deriving DecidableEq, Repr

/-- The supported digests. -/
inductive Digest where
  | dnone
  | md5
  | sha1
  | sha224
  | sha256
  | sha384
  | sha512
  deriving DecidableEq, Repr

/-- The supported padding modes. -/
inductive Padding where
  | pnone
  | rsaOaep
  | rsaPss
  | rsaPkcs1Sign
  | rsaPkcs1Encrypt
  | pkcs7
  deriving DecidableEq, Repr

/-- The supported AES block modes. -/
inductive BlockMode where
  | ecb
  | cbc
  | ctr
  | gcm
  deriving DecidableEq, Repr

/-- Key import/export formats. -/
inductive KeyFormat where
  | x509
  | pkcs8
  | raw
  deriving DecidableEq, Repr

/-- Digest output length in bits; digest NONE has no output length. -/
def digestBits : Digest → Nat
  | .dnone => 0
  | .md5 => 128
  | .sha1 => 160
  | .sha224 => 224
  | .sha256 => 256
  | .sha384 => 384
  | .sha512 => 512

/-- Digest output length in bytes. -/
def digestBytes (d : Digest) : Nat := digestBits d / 8

/-! ### Ideal primitive layer

An injective encoding of byte lists into naturals, a keyed byte
stream, and collision-free authenticators built from them.  These
stand in for the out-of-scope OpenSSL primitives. -/

/-- Injective encoding of a byte list as a natural number.  Built from
the Cantor-style `Nat.pair`, so distinct lists always encode
differently. -/
def encL : List Nat → Nat
  | [] => 0
  | a :: t => Nat.pair a (encL t) + 1

/-- Keystream byte for position `i` of the ideal stream cipher keyed
by `keyId` and `nonceId`. -/
def ksByte (keyId nonceId i : Nat) : Nat :=
  Nat.pair keyId (Nat.pair nonceId i) % 256

/-- XOR a byte list against a keystream starting at position `i`.
This is the ideal model of every length-preserving cipher mode in the
primitive table (raw RSA, AES-ECB/CBC/CTR block processing, the GCM
stream): a keyed bijection on byte strings. -/
def xorKs (ks : Nat → Nat) : Nat → List Nat → List Nat
  | _, [] => []
  | i, b :: t => (b ^^^ ks i) :: xorKs ks (i + 1) t

/-! ### Key objects and authorizations

Modelled from the spec: the key object holds the key material and the
authorization content that begin-time policy consults (purposes,
permitted digests/paddings/block modes, key size, RSA exponent,
caller-nonce permission).  The full tag-multiset machinery is not
needed by the operation claims; the blob codec below treats serialized
authorization sets as opaque byte strings, as the codec itself does. -/

/-- The policy-relevant content of a key's authorization set. -/
structure KeyAuths where
  algorithm : Algorithm
  keySizeBits : Nat
  rsaPublicExponent : Nat
  purposes : List Purpose
  digests : List Digest
  paddings : List Padding
  blockModes : List BlockMode
  callerNonce : Bool
  deriving DecidableEq, Repr

/-- Key material, one variant per algorithm family. -/
inductive KeyMaterial where
  | rsaMat (bits pubExp modulus : Nat)
  | ecMat (curveBits secret : Nat)
  | aesMat (keyBytes : List Nat)
  | hmacMat (keyBytes : List Nat)
  deriving DecidableEq, Repr

/-- A numeric identity for key material, keying the ideal primitives. -/
def KeyMaterial.keyId : KeyMaterial → Nat
  | .rsaMat b e n => Nat.pair 0 (Nat.pair b (Nat.pair e n))
  | .ecMat c s => Nat.pair 1 (Nat.pair c s)
  | .aesMat k => Nat.pair 2 (encL k)
  | .hmacMat k => Nat.pair 3 (encL k)

/-- A key object: authorization content plus material. -/
structure KeyObj where
  auths : KeyAuths
  material : KeyMaterial
  deriving DecidableEq, Repr

/-! ### The supported-surface queries (get_supported_*) -/

/-- Which purposes each algorithm family supports at all; queries for
other purposes return `unsupported-purpose`. -/
def purposeValidFor (a : Algorithm) (p : Purpose) : Bool :=
  match a, p with
  | .rsa, _ => true
  | .ec, .sign => true
  | .ec, .verify => true
  | .aes, .encrypt => true
  | .aes, .decrypt => true
  | .hmac, .sign => true
  | .hmac, .verify => true
  | _, _ => false

/-- get_supported_block_modes. -/
def getSupportedBlockModes (a : Algorithm) (p : Purpose) :
    Except KmError (List BlockMode) :=
  if purposeValidFor a p then
    .ok (match a with
      | .aes => [.ecb, .cbc, .ctr, .gcm]
      | _ => [])
  else .error .unsupportedPurpose

/-- get_supported_padding_modes. -/
def getSupportedPaddingModes (a : Algorithm) (p : Purpose) :
    Except KmError (List Padding) :=
  if purposeValidFor a p then
    .ok (match a, p with
      | .rsa, .sign => [.pnone, .rsaPkcs1Sign, .rsaPss]
      | .rsa, .verify => [.pnone, .rsaPkcs1Sign, .rsaPss]
      | .rsa, _ => [.pnone, .rsaOaep, .rsaPkcs1Encrypt]
      | .aes, _ => [.pnone, .pkcs7]
      | _, _ => [])
  else .error .unsupportedPurpose

/-- get_supported_digests. -/
def getSupportedDigests (a : Algorithm) (p : Purpose) :
    Except KmError (List Digest) :=
  if purposeValidFor a p then
    .ok (match a with
      | .rsa => [.dnone, .md5, .sha1, .sha224, .sha256, .sha384, .sha512]
      | .ec => [.dnone, .md5, .sha1, .sha224, .sha256, .sha384, .sha512]
      | .hmac => [.sha1, .sha224, .sha256, .sha384, .sha512]
      | .aes => [])
  else .error .unsupportedPurpose

/-- The list carried by a successful supported-surface reply. -/
def supList {α : Type} : Except KmError (List α) → List α
  | .ok l => l
  | .error _ => []

/-! ### Begin-time policy engine

Modelled from the spec (§4.7), in its stated order: purpose check,
then parameter consistency, then the caller-nonce rule.  Two points
are pinned by the test suite rather than the spec prose: the HMAC
MAC-length bound is enforced at finish, not begin, and the
caller-nonce rule applies to encrypt operations only (decrypt accepts
a supplied nonce without the caller-nonce authorization). -/

/-- Begin-time request parameters. -/
structure BeginParams where
  digest : Option Digest
  padding : Option Padding
  blockMode : Option BlockMode
  macLength : Option Nat
  nonce : Option (List Nat)
  deriving DecidableEq, Repr

/-- The operation parameters pinned at begin time. -/
structure Resolved where
  digest : Digest
  padding : Padding
  blockMode : Option BlockMode
  macLength : Option Nat
  nonceSpec : Option (List Nat)
  deriving DecidableEq, Repr

/-- Nonce/IV length in bytes for an AES block mode. -/
def nonceLenFor : BlockMode → Nat
  | .gcm => 12
  | _ => 16

/-- Paddings meaningful for an AES block mode. -/
def aesValidPads : BlockMode → List Padding
  | .ecb => [.pnone, .pkcs7]
  | .cbc => [.pnone, .pkcs7]
  | .ctr => [.pnone]
  | .gcm => [.pnone]

/-- RSA sign/verify parameter checks. -/
def resolveRsaSign (a : KeyAuths) (p : BeginParams) : Except KmError Resolved :=
  match p.padding with
  | none => .error .unsupportedPaddingMode
  | some pad =>
    if pad ∈ ([.pnone, .rsaPkcs1Sign, .rsaPss] : List Padding) then
      if pad ∈ a.paddings then
        match p.digest with
        | none => .error .unsupportedDigest
        | some d =>
          if d ∈ a.digests then
            if pad = .rsaPss then
              if d = .dnone then .error .incompatibleDigest
              else if a.keySizeBits / 8 < digestBytes d + 10 then
                .error .incompatibleDigest
              else .ok ⟨d, pad, none, p.macLength, none⟩
            else .ok ⟨d, pad, none, p.macLength, none⟩
          else .error .incompatibleDigest
      else .error .incompatiblePaddingMode
    else .error .unsupportedPaddingMode

/-- RSA encrypt/decrypt parameter checks. -/
def resolveRsaCrypt (a : KeyAuths) (p : BeginParams) : Except KmError Resolved :=
  match p.padding with
  | none => .error .unsupportedPaddingMode
  | some pad =>
    if pad ∈ ([.pnone, .rsaOaep, .rsaPkcs1Encrypt] : List Padding) then
      if pad ∈ a.paddings then
        .ok ⟨p.digest.getD .dnone, pad, none, p.macLength, none⟩
      else .error .incompatiblePaddingMode
    else .error .unsupportedPaddingMode

/-- EC sign/verify parameter checks (digest optional, raw ECDSA). -/
def resolveEcSign (a : KeyAuths) (p : BeginParams) : Except KmError Resolved :=
  match p.digest with
  | none => .ok ⟨.dnone, .pnone, none, p.macLength, none⟩
  | some d =>
    if d ∈ a.digests then .ok ⟨d, .pnone, none, p.macLength, none⟩
    else .error .incompatibleDigest

/-- HMAC sign/verify parameter checks.  The requested MAC length is
recorded but not bounded here: the test suite pins the bound check at
finish time. -/
def resolveHmacSign (a : KeyAuths) (p : BeginParams) : Except KmError Resolved :=
  match p.digest with
  | none => .error .unsupportedDigest
  | some d =>
    if d ∈ a.digests then .ok ⟨d, .pnone, none, p.macLength, none⟩
    else .error .incompatibleDigest

/-- The caller-nonce rule: on encrypt, a supplied nonce requires the
caller-nonce authorization and the mode's nonce length; on decrypt a
supplied nonce is accepted as-is. -/
def resolveAesNonce (a : KeyAuths) (purpose : Purpose) (bm : BlockMode)
    (pad : Padding) (p : BeginParams) : Except KmError Resolved :=
  if purpose = .encrypt then
    match p.nonce with
    | some nv =>
      if a.callerNonce then
        if nv.length = nonceLenFor bm then
          .ok ⟨.dnone, pad, some bm, p.macLength, some nv⟩
        else .error .invalidNonce
      else .error .callerNonceProhibited
    | none => .ok ⟨.dnone, pad, some bm, p.macLength, none⟩
  else .ok ⟨.dnone, pad, some bm, p.macLength, p.nonce⟩

/-- AES encrypt/decrypt parameter checks. -/
def resolveAesCrypt (a : KeyAuths) (purpose : Purpose) (p : BeginParams) :
    Except KmError Resolved :=
  match p.blockMode with
  | none => .error .incompatibleBlockMode
  | some bm =>
    if bm ∈ a.blockModes then
      match p.padding with
      | none => .error .unsupportedPaddingMode
      | some pad =>
        if pad ∈ aesValidPads bm then
          if pad ∈ a.paddings then
            if bm = .gcm then
              match p.macLength with
              | none => .error .unsupportedMacLength
              | some ml =>
                if ml % 8 = 0 ∧ 96 ≤ ml ∧ ml ≤ 128 then
                  resolveAesNonce a purpose bm pad p
                else .error .unsupportedMacLength
            else resolveAesNonce a purpose bm pad p
          else .error .incompatiblePaddingMode
        else .error .unsupportedPaddingMode
    else .error .incompatibleBlockMode

/-- Begin-time policy: the purpose check comes first (step 1 of §4.7),
then algorithm-specific parameter consistency. -/
def resolveBegin (key : KeyObj) (purpose : Purpose) (p : BeginParams) :
    Except KmError Resolved :=
  if purpose ∈ key.auths.purposes then
    match key.auths.algorithm, purpose with
    | .rsa, .sign => resolveRsaSign key.auths p
    | .rsa, .verify => resolveRsaSign key.auths p
    | .rsa, .encrypt => resolveRsaCrypt key.auths p
    | .rsa, .decrypt => resolveRsaCrypt key.auths p
    | .ec, .sign => resolveEcSign key.auths p
    | .ec, .verify => resolveEcSign key.auths p
    | .hmac, .sign => resolveHmacSign key.auths p
    | .hmac, .verify => resolveHmacSign key.auths p
    | .aes, .encrypt => resolveAesCrypt key.auths purpose p
    | .aes, .decrypt => resolveAesCrypt key.auths purpose p
    | _, _ => .error .unsupportedPurpose
  else .error .incompatiblePurpose

/-! ### The operation state machine

Modelled from the spec (§4.6): begin creates an operation under a
fresh non-zero 64-bit handle drawn from a monotonic counter, update
streams input, finish emits the remaining output, abort cancels.  All
three remove the table entry on transition out of Input; errors from
update or finish destroy the operation. -/

/-- A live operation: pinned parameters, nonce, accumulated input (the
message for sign/verify, the ciphertext for AEAD), accumulated
associated data, and the caller-supplied AEAD tag. -/
structure OpState where
  purpose : Purpose
  key : KeyObj
  digest : Digest
  padding : Padding
  blockMode : Option BlockMode
  macLength : Option Nat
  nonce : List Nat
  acc : List Nat
  aad : List Nat
  suppliedTag : Option (List Nat)
  deriving DecidableEq, Repr

/-- The process-wide service state: handle counter, operation table,
nonce-generation counter for the randomness source. -/
structure KmState where
  nextHandle : Nat
  table : List (Nat × OpState)
  rngCounter : Nat
  deriving DecidableEq, Repr

/-- The state at service start: handles start at 1 (non-zero). -/
def initState : KmState := ⟨1, [], 0⟩

/-- Internal nonce generation from the process randomness source. -/
def genNonce (len seed : Nat) : List Nat :=
  (List.range len).map (fun i => Nat.pair seed i % 256)

/-- Remove an operation from the table. -/
def removeOp (st : KmState) (h : Nat) : KmState :=
  { st with table := st.table.eraseP (fun e => e.1 == h) }

/-- Replace an operation's state in the table. -/
def replaceOp (st : KmState) (h : Nat) (op : OpState) : KmState :=
  { st with table := st.table.map (fun e => if e.1 = h then (h, op) else e) }

/-- Result of begin: error code, new state, handle, and the
internally generated nonce written to the output parameters. -/
structure BeginResult where
  error : KmError
  st : KmState
  handle : Nat
  outNonce : Option (List Nat)
  deriving DecidableEq, Repr

/-- The begin entry point: policy checks, nonce resolution, and
registration in the operation table (at most 16 live operations). -/
def beginOp (st : KmState) (key : KeyObj) (purpose : Purpose)
    (p : BeginParams) : BeginResult :=
  match resolveBegin key purpose p with
  | .error e => ⟨e, st, 0, none⟩
  | .ok r =>
    if st.table.length ≥ 16 then ⟨.tooManyOperations, st, 0, none⟩
    else
      let gen := r.blockMode.isSome ∧ purpose = .encrypt ∧ r.nonceSpec = none
      let nonceVal :=
        match r.nonceSpec with
        | some nv => nv
        | none =>
          if r.blockMode.isSome ∧ purpose = .encrypt then
            genNonce (nonceLenFor (r.blockMode.getD .cbc)) st.rngCounter
          else []
      let op : OpState :=
        ⟨purpose, key, r.digest, r.padding, r.blockMode, r.macLength,
          nonceVal, [], [], none⟩
      let h := st.nextHandle
      ⟨.ok, ⟨st.nextHandle + 1, (h, op) :: st.table,
        if gen then st.rngCounter + 1 else st.rngCounter⟩, h,
        if r.blockMode.isSome ∧ purpose = .encrypt then some nonceVal
        else none⟩

/-- The abort entry point: removes the entry; a handle not in the
table yields `invalid-operation-handle`. -/
def abortOp (st : KmState) (h : Nat) : KmError × KmState :=
  match st.table.lookup h with
  | some _ => (.ok, removeOp st h)
  | none => (.invalidOperationHandle, st)

/-- Update-time request parameters: associated-data entries (already
concatenated in order) and the AEAD tag for decrypt. -/
structure UpdateParams where
  aad : List Nat
  aeadTag : Option (List Nat)
  deriving DecidableEq, Repr

/-- The keystream of the ideal cipher for a key and nonce. -/
def streamOf (key : KeyObj) (nonce : List Nat) (i : Nat) : Nat :=
  ksByte key.material.keyId (encL nonce) i

/-- The keystream of the operation's ideal cipher. -/
def opStream (op : OpState) : Nat → Nat :=
  streamOf op.key op.nonce

/-- One update step on a single operation.  Sign/verify and block
ciphers accumulate the message (update may emit zero bytes and
enforce length rules lazily at finish); GCM streams: encrypt emits
ciphertext, decrypt emits the decrypted bytes immediately, before any
authentication has happened.  A supplied AEAD tag of length outside
12–16 bytes is rejected here with `unsupported-mac-length`. -/
def stepUpdate (op : OpState) (p : UpdateParams) (input : List Nat) :
    Except KmError (OpState × Nat × List Nat) :=
  match op.blockMode with
  | some .gcm =>
    match p.aeadTag with
    | some t =>
      if t.length < 12 ∨ 16 < t.length then .error .unsupportedMacLength
      else
        stepUpdateGcm { op with suppliedTag := some t, aad := op.aad ++ p.aad }
          input
    | none => stepUpdateGcm { op with aad := op.aad ++ p.aad } input
  | _ => .ok ({ op with acc := op.acc ++ input }, input.length, [])
where
  /-- GCM streaming: the keystream offset is the ciphertext length so
  far; the accumulator tracks ciphertext on both directions. -/
  stepUpdateGcm (op : OpState) (input : List Nat) :
      Except KmError (OpState × Nat × List Nat) :=
    let chunk := xorKs (opStream op) op.acc.length input
    match op.purpose with
    | .encrypt => .ok ({ op with acc := op.acc ++ chunk }, input.length, chunk)
    | .decrypt => .ok ({ op with acc := op.acc ++ input }, input.length, chunk)
    | _ => .error .unknownError

/-- Result of update: error, new state, bytes consumed, output. -/
structure UpdateResult where
  error : KmError
  st : KmState
  consumed : Nat
  output : List Nat
  deriving DecidableEq, Repr

/-- The update entry point.  An unknown handle yields
`invalid-operation-handle`; an error destroys the operation. -/
def updateOp (st : KmState) (h : Nat) (p : UpdateParams)
    (input : List Nat) : UpdateResult :=
  match st.table.lookup h with
  | none => ⟨.invalidOperationHandle, st, 0, []⟩
  | some op =>
    match stepUpdate op p input with
    | .error e => ⟨e, removeOp st h, 0, []⟩
    | .ok (op2, consumed, out) => ⟨.ok, replaceOp st h op2, consumed, out⟩

/-! ### Finish: the per-adapter output rules -/

/-- A byte string read as a big-endian number (raw RSA treats the
message as a number that must stay below the modulus). -/
def beNum (l : List Nat) : Nat := l.foldl (fun acc b => acc * 256 + b) 0

/-- PKCS#7 padding to the 16-byte AES block. -/
def pkcs7Pad (m : List Nat) : List Nat :=
  m ++ List.replicate (16 - m.length % 16) (16 - m.length % 16)

/-- PKCS#7 unpadding (the padding length is the last byte; an empty
input reads as padding length 0 and is rejected); `none` on malformed
padding. -/
def pkcs7Unpad (m : List Nat) : Option (List Nat) :=
  if 1 ≤ m.getLast?.getD 0 ∧ m.getLast?.getD 0 ≤ 16 ∧
      m.getLast?.getD 0 ≤ m.length ∧
      (m.drop (m.length - m.getLast?.getD 0)).all
        (fun b => b = m.getLast?.getD 0) then
    some (m.take (m.length - m.getLast?.getD 0))
  else none

/-- A numeric code per padding mode, for the ideal signature. -/
def Padding.code : Padding → Nat
  | .pnone => 0
  | .rsaOaep => 1
  | .rsaPss => 2
  | .rsaPkcs1Sign => 3
  | .rsaPkcs1Encrypt => 4
  | .pkcs7 => 5

/-- Ideal signature: a deterministic 32-byte function of the key, the
digest/padding configuration and the whole message.  Verify recomputes
it and compares. -/
def mkSig (keyId : Nat) (d : Digest) (pad : Padding) (msg : List Nat) :
    List Nat :=
  (List.range 32).map (fun i =>
    Nat.pair (Nat.pair keyId (Nat.pair (digestBits d) (Padding.code pad)))
      (Nat.pair (encL msg) i) % 256)

/-- Ideal HMAC: a deterministic digest-length byte string; the
returned MAC is its truncation to the requested length. -/
def hmacFull (keyId : Nat) (d : Digest) (msg : List Nat) : List Nat :=
  (List.range (digestBytes d)).map (fun i =>
    Nat.pair (Nat.pair keyId (digestBits d)) (Nat.pair (encL msg) i) % 256)

/-- Ideal AES-GCM authenticator over (nonce, associated data,
ciphertext), `tagBytes` long.  Collision-freedom of the real
authenticator is idealized by making the final entry an injective
encoding of the authenticated data. -/
def gcmTag (keyId : Nat) (nonce aad ct : List Nat) (tagBytes : Nat) :
    List Nat :=
  List.replicate (tagBytes - 1) 0 ++
    [Nat.pair keyId (Nat.pair (encL nonce) (Nat.pair (encL aad) (encL ct)))]

/-- The GCM tag length pinned at begin, in bytes. -/
def opTagBytes (op : OpState) : Nat := (op.macLength.getD 128) / 8

/-- Finish for sign-purpose operations. -/
def stepFinishSign (op : OpState) : Except KmError (List Nat) :=
  let keyId := op.key.material.keyId
  match op.key.material with
  | .rsaMat bits _ modulus =>
    match op.padding with
    | .pnone =>
      -- raw RSA: the message must be exactly key-byte-length and
      -- numerically below the modulus; anything else is the generic
      -- unknown-error at finish
      if op.acc.length = bits / 8 ∧ beNum op.acc < modulus then
        .ok (mkSig keyId op.digest .pnone op.acc)
      else .error .unknownError
    | .rsaPkcs1Sign =>
      if op.digest = .dnone ∧ bits / 8 < op.acc.length + 11 then
        .error .unknownError
      else .ok (mkSig keyId op.digest .rsaPkcs1Sign op.acc)
    | .rsaPss => .ok (mkSig keyId op.digest .rsaPss op.acc)
    | _ => .error .unsupportedPaddingMode
  | .ecMat _ _ => .ok (mkSig keyId op.digest .pnone op.acc)
  | .hmacMat _ =>
    -- the requested MAC length must not exceed the digest's natural
    -- output; the test suite pins this check here, at finish
    let ml := op.macLength.getD (digestBits op.digest)
    if digestBits op.digest < ml then .error .unsupportedMacLength
    else .ok ((hmacFull keyId op.digest op.acc).take (ml / 8))
  | _ => .error .unknownError

/-- Finish for verify-purpose operations: recompute and compare. -/
def stepFinishVerify (op : OpState) (signature : Option (List Nat)) :
    Except KmError (List Nat) :=
  let keyId := op.key.material.keyId
  match signature with
  | none => .error .invalidArgument
  | some s =>
    match op.key.material with
    | .rsaMat bits _ modulus =>
      match op.padding with
      | .pnone =>
        if op.acc.length = bits / 8 ∧ beNum op.acc < modulus then
          if s = mkSig keyId op.digest .pnone op.acc then .ok []
          else .error .verificationFailed
        else .error .unknownError
      | .rsaPkcs1Sign =>
        if s = mkSig keyId op.digest .rsaPkcs1Sign op.acc then .ok []
        else .error .verificationFailed
      | .rsaPss =>
        if s = mkSig keyId op.digest .rsaPss op.acc then .ok []
        else .error .verificationFailed
      | _ => .error .unsupportedPaddingMode
    | .ecMat _ _ =>
      if s = mkSig keyId op.digest .pnone op.acc then .ok []
      else .error .verificationFailed
    | .hmacMat _ =>
      if s = (hmacFull keyId op.digest op.acc).take s.length then .ok []
      else .error .verificationFailed
    | _ => .error .unknownError

/-- Finish for encrypt-purpose operations: emit the (padded)
ciphertext, or the AEAD tag in the output parameters for GCM. -/
def stepFinishEncrypt (op : OpState) :
    Except KmError (List Nat × Option (List Nat)) :=
  match op.key.material with
  | .rsaMat bits _ _ =>
    match op.padding with
    | .pnone =>
      if op.acc.length = bits / 8 then
        .ok (xorKs (opStream op) 0 op.acc, none)
      else .error .invalidInputLength
    | .rsaOaep =>
      if op.acc.length + 2 * digestBytes .sha1 + 2 ≤ bits / 8 then
        .ok (xorKs (opStream op) 0 op.acc, none)
      else .error .invalidInputLength
    | .rsaPkcs1Encrypt =>
      if op.acc.length + 11 ≤ bits / 8 then
        .ok (xorKs (opStream op) 0 op.acc, none)
      else .error .invalidInputLength
    | _ => .error .unsupportedPaddingMode
  | .aesMat _ =>
    match op.blockMode with
    | some .gcm =>
      .ok ([], some (gcmTag op.key.material.keyId op.nonce op.aad op.acc
        (opTagBytes op)))
    | some bm =>
      match op.padding with
      | .pkcs7 => .ok (xorKs (opStream op) 0 (pkcs7Pad op.acc), none)
      | .pnone =>
        if bm = .ctr ∨ op.acc.length % 16 = 0 then
          .ok (xorKs (opStream op) 0 op.acc, none)
        else .error .invalidInputLength
      | _ => .error .unsupportedPaddingMode
    | none => .error .unknownError
  | _ => .error .unknownError

/-- Finish for decrypt-purpose operations: for GCM, check the supplied
tag against the authenticator of the accumulated associated data and
ciphertext; otherwise invert the cipher and strip padding. -/
def stepFinishDecrypt (op : OpState) :
    Except KmError (List Nat) :=
  match op.key.material with
  | .rsaMat _ _ _ =>
    match op.padding with
    | .pnone => .ok (xorKs (opStream op) 0 op.acc)
    | .rsaOaep => .ok (xorKs (opStream op) 0 op.acc)
    | .rsaPkcs1Encrypt => .ok (xorKs (opStream op) 0 op.acc)
    | _ => .error .unsupportedPaddingMode
  | .aesMat _ =>
    match op.blockMode with
    | some .gcm =>
      match op.suppliedTag with
      | none => .error .unsupportedMacLength
      | some t =>
        if t = gcmTag op.key.material.keyId op.nonce op.aad op.acc
            (opTagBytes op) then .ok []
        else .error .verificationFailed
    | some bm =>
      match op.padding with
      | .pkcs7 =>
        match pkcs7Unpad (xorKs (opStream op) 0 op.acc) with
        | some m => .ok m
        | none => .error .unknownError
      | .pnone =>
        if bm = .ctr ∨ op.acc.length % 16 = 0 then
          .ok (xorKs (opStream op) 0 op.acc)
        else .error .invalidInputLength
      | _ => .error .unsupportedPaddingMode
    | none => .error .unknownError
  | _ => .error .unknownError

/-- One finish step: dispatch on purpose.  Returns output bytes and
the AEAD tag output parameter. -/
def stepFinish (op : OpState) (signature : Option (List Nat)) :
    Except KmError (List Nat × Option (List Nat)) :=
  match op.purpose with
  | .sign => (stepFinishSign op).map (fun out => (out, none))
  | .verify => (stepFinishVerify op signature).map (fun out => (out, none))
  | .encrypt => stepFinishEncrypt op
  | .decrypt => (stepFinishDecrypt op).map (fun out => (out, none))

/-- Result of finish: error, new state, output bytes, AEAD tag. -/
structure FinishResult where
  error : KmError
  st : KmState
  output : List Nat
  outTag : Option (List Nat)
  deriving DecidableEq, Repr

/-- The finish entry point.  The operation is destroyed whether it
succeeds or fails; on failure no output is produced. -/
def finishOp (st : KmState) (h : Nat) (signature : Option (List Nat)) :
    FinishResult :=
  match st.table.lookup h with
  | none => ⟨.invalidOperationHandle, st, [], none⟩
  | some op =>
    match stepFinish op signature with
    | .error e => ⟨e, removeOp st h, [], none⟩
    | .ok (out, tag) => ⟨.ok, removeOp st h, out, tag⟩

/-! ### Single-shot client flows

The composition the tests perform: begin, one update carrying the
whole message, finish. -/

/-- Outcome of a begin/update/finish flow. -/
structure FlowResult where
  error : KmError
  output : List Nat
  outNonce : Option (List Nat)
  outTag : Option (List Nat)
  deriving DecidableEq, Repr

/-- Run one operation from a fresh service state: begin, a single
update with the whole input, then finish.  Output bytes are the
concatenation of the update and finish outputs. -/
def runOnce (key : KeyObj) (purpose : Purpose) (bp : BeginParams)
    (up : UpdateParams) (input : List Nat)
    (signature : Option (List Nat)) : FlowResult :=
  let b := beginOp initState key purpose bp
  if b.error = .ok then
    let u := updateOp b.st b.handle up input
    if u.error = .ok then
      let f := finishOp u.st b.handle signature
      ⟨f.error, u.output ++ f.output, b.outNonce, f.outTag⟩
    else ⟨u.error, u.output, b.outNonce, none⟩
  else ⟨b.error, [], none, none⟩

/-- Sign a message, then verify the produced signature on the same
message under the same key and parameters. -/
def signVerifyFlow (key : KeyObj) (bp : BeginParams) (msg : List Nat) :
    KmError :=
  let s := runOnce key .sign bp ⟨[], none⟩ msg none
  if s.error = .ok then
    (runOnce key .verify bp ⟨[], none⟩ msg (some s.output)).error
  else s.error

/-- Encrypt a message, then decrypt the produced ciphertext with the
nonce returned by begin and (for AEAD) the tag returned by finish. -/
def encDecFlow (key : KeyObj) (bp : BeginParams) (aad msg : List Nat) :
    KmError × List Nat :=
  let e := runOnce key .encrypt bp ⟨aad, none⟩ msg none
  if e.error = .ok then
    let d := runOnce key .decrypt { bp with nonce := e.outNonce }
      ⟨aad, e.outTag⟩ e.output none
    (d.error, d.output)
  else (e.error, [])

/-! ### AES-GCM flows

The begin/update/finish compositions the AEAD tests perform, with a
MAC length of 128 bits and the associated data supplied in the update
parameters. -/

/-- Begin parameters for an AES-GCM operation with MAC length 128. -/
def gcmBeginParams (nonce : Option (List Nat)) : BeginParams :=
  ⟨none, some .pnone, some .gcm, some 128, nonce⟩

/-- GCM encrypt of a whole message: the nonce comes back in the begin
output parameters, the tag in the finish output parameters. -/
def gcmEncrypt (key : KeyObj) (aad msg : List Nat) : FlowResult :=
  runOnce key .encrypt (gcmBeginParams none) ⟨aad, none⟩ msg none

/-- GCM decrypt of a whole ciphertext with a supplied nonce, AAD and
tag. -/
def gcmDecrypt (key : KeyObj) (nonce aad ct tag : List Nat) : FlowResult :=
  runOnce key .decrypt (gcmBeginParams (some nonce)) ⟨aad, some tag⟩ ct none

/-- The begin step of a GCM decrypt. -/
def gcmDecBegin (key : KeyObj) (nonce : List Nat) : BeginResult :=
  beginOp initState key .decrypt (gcmBeginParams (some nonce))

/-- The update step of a GCM decrypt: AAD, tag and the whole
ciphertext in one call. -/
def gcmDecUpdate (key : KeyObj) (nonce aad ct tag : List Nat) :
    UpdateResult :=
  updateOp (gcmDecBegin key nonce).st (gcmDecBegin key nonce).handle
    ⟨aad, some tag⟩ ct

/-- The finish step of a GCM decrypt. -/
def gcmDecFinish (key : KeyObj) (nonce aad ct tag : List Nat) :
    FinishResult :=
  finishOp (gcmDecUpdate key nonce aad ct tag).st
    (gcmDecBegin key nonce).handle none

/-! ### Round-trip configurations

The (algorithm, mode, padding) surface returned by get_supported_*,
as consumed by the sign/verify and encrypt/decrypt round-trip
property, together with the per-configuration message constraints the
primitive table imposes. -/

/-- Begin parameters of the sign/verify flows: digest and padding as
configured, and the digest-length MAC for HMAC. -/
def signParams (pad : Padding) (d : Digest) : BeginParams :=
  ⟨some d, some pad, none, some (digestBits d), none⟩

/-- Begin parameters of the encrypt/decrypt flows: block mode and
padding as configured, MAC length 128 for GCM. -/
def encParams (bm : Option BlockMode) (pad : Padding) : BeginParams :=
  ⟨none, some pad, bm, some 128, none⟩

/-- A supported sign/verify configuration and a message valid for it:
the key authorizes both purposes and the parameters, the padding and
digest are in the supported surface for the algorithm, and the
message obeys the primitive table's length rules. -/
def SignValid (a : KeyAuths) (mat : KeyMaterial) (pad : Padding)
    (d : Digest) (msg : List Nat) : Prop :=
  Purpose.sign ∈ a.purposes ∧ Purpose.verify ∈ a.purposes ∧
  d ∈ a.digests ∧
  match mat, a.algorithm with
  | .rsaMat bits _ modulus, .rsa =>
    bits = a.keySizeBits ∧
    pad ∈ supList (getSupportedPaddingModes .rsa .sign) ∧
    pad ∈ a.paddings ∧
    d ∈ supList (getSupportedDigests .rsa .sign) ∧
    (pad = .pnone → d = .dnone ∧ msg.length = bits / 8 ∧
      beNum msg < modulus) ∧
    (pad = .rsaPkcs1Sign → d = .dnone → msg.length + 11 ≤ bits / 8) ∧
    (pad = .rsaPss → d ≠ .dnone ∧ digestBytes d + 10 ≤ bits / 8)
  | .ecMat _ _, .ec =>
    pad = .pnone ∧ d ∈ supList (getSupportedDigests .ec .sign)
  | .hmacMat _, .hmac =>
    pad = .pnone ∧ d ∈ supList (getSupportedDigests .hmac .sign)
  | _, _ => False

/-- A supported encrypt/decrypt configuration and a message valid for
it. -/
def EncValid (a : KeyAuths) (mat : KeyMaterial) (bm : Option BlockMode)
    (pad : Padding) (msg : List Nat) : Prop :=
  Purpose.encrypt ∈ a.purposes ∧ Purpose.decrypt ∈ a.purposes ∧
  match mat, a.algorithm, bm with
  | .rsaMat bits _ _, .rsa, none =>
    bits = a.keySizeBits ∧
    pad ∈ supList (getSupportedPaddingModes .rsa .encrypt) ∧
    pad ∈ a.paddings ∧
    (pad = .pnone → msg.length = bits / 8) ∧
    (pad = .rsaOaep → msg.length + 2 * digestBytes .sha1 + 2 ≤ bits / 8) ∧
    (pad = .rsaPkcs1Encrypt → msg.length + 11 ≤ bits / 8)
  | .aesMat _, .aes, some bmode =>
    bmode ∈ supList (getSupportedBlockModes .aes .encrypt) ∧
    bmode ∈ a.blockModes ∧
    pad ∈ supList (getSupportedPaddingModes .aes .encrypt) ∧
    pad ∈ aesValidPads bmode ∧ pad ∈ a.paddings ∧
    (pad = .pnone → (bmode = .ecb ∨ bmode = .cbc) →
      msg.length % 16 = 0)
  | _, _, _ => False

/-! ### The key-blob codec

Modelled from the spec (§4.3): a blob is
magic | version | nonce (12 bytes) | tag (16 bytes) | ciphertext
length | ciphertext | serialized authorization sets, where the
ciphertext is the key material sealed under a process-local master
key and the authenticator covers the serialized authorization sets as
associated data.  The codec consumes the serialized authorization
region as opaque bytes; the AES-GCM seal is idealized as the keyed
stream plus the collision-free authenticator, as above. -/

/-- Leading magic byte of a current-format blob. -/
def magicByte : Nat := 75

/-- Version byte of the current blob format. -/
def versionByte : Nat := 1

/-- Little-endian 4-byte length field. -/
def le32 (n : Nat) : List Nat :=
  [n % 256, n / 256 % 256, n / 65536 % 256, n / 16777216 % 256]

/-- Read a 4-byte little-endian length field. -/
def fromLe32 : List Nat → Nat
  | [a, b, c, d] => a + 256 * b + 65536 * c + 16777216 * d
  | _ => 0

/-- The parsed fields of a blob. -/
structure BlobParts where
  nonce : List Nat
  tag : List Nat
  ct : List Nat
  authBytes : List Nat
  deriving DecidableEq, Repr

/-- Serialize blob fields. -/
def encodeBlob (p : BlobParts) : List Nat :=
  magicByte :: versionByte ::
    (p.nonce ++ (p.tag ++ (le32 p.ct.length ++ (p.ct ++ p.authBytes))))

/-- Parse a blob: fixed-offset nonce, tag and length fields, then the
ciphertext and the trailing serialized authorization region. -/
def decodeBlob (b : List Nat) : Option BlobParts :=
  match b with
  | m :: v :: rest =>
    if m = magicByte ∧ v = versionByte ∧ 32 ≤ rest.length then
      if ((rest.drop 28).take 4).all (fun x => x < 256) then
        if fromLe32 ((rest.drop 28).take 4) ≤ (rest.drop 32).length then
          some ⟨rest.take 12, (rest.drop 12).take 16,
            (rest.drop 32).take (fromLe32 ((rest.drop 28).take 4)),
            (rest.drop 32).drop (fromLe32 ((rest.drop 28).take 4))⟩
        else none
      else none
    else none
  | _ => none

/-- Ideal 16-byte blob authenticator over (nonce, serialized
authorization sets, ciphertext) under the master key. -/
def blobTag (master : Nat) (nonce ad ct : List Nat) : List Nat :=
  List.replicate 15 0 ++
    [Nat.pair master (Nat.pair (encL nonce) (Nat.pair (encL ad) (encL ct)))]

/-- Keystream of the master-key seal. -/
def blobStream (master : Nat) (nonce : List Nat) (i : Nat) : Nat :=
  ksByte master (encL nonce) i

/-- Seal key material and its serialized authorization sets into a
blob. -/
def sealKeyBlob (master : Nat) (nonce authBytes keyMat : List Nat) :
    List Nat :=
  encodeBlob ⟨nonce, blobTag master nonce authBytes
      (xorKs (blobStream master nonce) 0 keyMat),
    xorKs (blobStream master nonce) 0 keyMat, authBytes⟩

/-- Unseal a blob: parse, check the authenticator, decrypt.  Any
failure is `invalid-key-blob`. -/
def unsealKeyBlob (master : Nat) (b : List Nat) :
    Except KmError (List Nat × List Nat) :=
  match decodeBlob b with
  | none => .error .invalidKeyBlob
  | some p =>
    if p.tag = blobTag master p.nonce p.authBytes p.ct then
      .ok (xorKs (blobStream master p.nonce) 0 p.ct, p.authBytes)
    else .error .invalidKeyBlob

/-- Toggle bit `i % 8` of byte `i / 8` of a byte string. -/
def flipBit (bs : List Nat) (i : Nat) : List Nat :=
  bs.set (i / 8) (bs.getD (i / 8) 0 ^^^ 2 ^ (i % 8))

/-- The export entry point: unseal first (so a corrupted blob fails
with `invalid-key-blob`), then emit public material for the X.509
format. -/
def exportKey (master : Nat) (fmt : KeyFormat) (blob : List Nat) :
    Except KmError (List Nat) :=
  match unsealKeyBlob master blob with
  | .error e => .error e
  | .ok (km, _) =>
    if fmt = .x509 then .ok km else .error .unsupportedKeyFormat

/-! ### Key import

Modelled from the spec (§4.4): PKCS#8 DER parsing is done by the
out-of-scope primitive library, idealized here as a framed record
holding the key's intrinsic parameters.  The core re-derives key size
and RSA public exponent from the material and cross-checks them
against the declared authorization values; a mismatch is
`import-parameter-mismatch`. -/

/-- Idealized PKCS#8 DER encoding of an RSA private key: a framed
record of (modulus bit length, public exponent, modulus, private
exponent). -/
def decodeRsaPk8 : List Nat → Option (Nat × Nat × Nat × Nat)
  | [48, bits, e, n, d] => some (bits, e, n, d)
  | _ => none

/-- Idealized PKCS#8 DER encoding of an EC private key. -/
def decodeEcPk8 : List Nat → Option (Nat × Nat)
  | [49, curveBits, s] => some (curveBits, s)
  | _ => none

/-- The import entry point: parse the material in the declared
format, re-derive intrinsic parameters, and cross-check them against
the declared authorization values. -/
def importKey (declared : KeyAuths) (fmt : KeyFormat)
    (material : List Nat) : Except KmError KeyObj :=
  match declared.algorithm with
  | .rsa =>
    if fmt = .pkcs8 then
      match decodeRsaPk8 material with
      | none => .error .invalidKeyBlob
      | some (bits, e, n, _) =>
        if declared.keySizeBits = bits then
          if declared.rsaPublicExponent = e then
            .ok ⟨declared, .rsaMat bits e n⟩
          else .error .importParameterMismatch
        else .error .importParameterMismatch
    else .error .unsupportedKeyFormat
  | .ec =>
    if fmt = .pkcs8 then
      match decodeEcPk8 material with
      | none => .error .invalidKeyBlob
      | some (curveBits, s) =>
        if declared.keySizeBits = curveBits then
          .ok ⟨declared, .ecMat curveBits s⟩
        else .error .importParameterMismatch
    else .error .unsupportedKeyFormat
  | .aes =>
    if fmt = .raw then .ok ⟨declared, .aesMat material⟩
    else .error .unsupportedKeyFormat
  | .hmac =>
    if fmt = .raw then .ok ⟨declared, .hmacMat material⟩
    else .error .unsupportedKeyFormat

/-! ## Lemmas about the ideal primitives -/

theorem encL_injective : Function.Injective encL := by
  intro xs
  induction xs with
  | nil =>
    intro ys h
    cases ys with
    | nil => rfl
    | cons b t => simp [encL] at h
  | cons a t ih =>
    intro ys h
    cases ys with
    | nil => simp [encL] at h
    | cons b u =>
      simp only [encL, Nat.add_right_cancel_iff, Nat.pair_eq_pair] at h
      obtain ⟨h1, h2⟩ := h
      exact h1 ▸ congrArg (List.cons a) (ih h2)

theorem xorKs_xorKs (ks : Nat → Nat) (i : Nat) (m : List Nat) :
    xorKs ks i (xorKs ks i m) = m := by
  induction m generalizing i with
  | nil => rfl
  | cons b t ih =>
    simp only [xorKs, ih]
    rw [Nat.xor_assoc, Nat.xor_self, Nat.xor_zero]

theorem xorKs_length (ks : Nat → Nat) (i : Nat) (m : List Nat) :
    (xorKs ks i m).length = m.length := by
  induction m generalizing i with
  | nil => rfl
  | cons b t ih => simp [xorKs, ih]

/-! ## Lemmas about begin -/

theorem resolveAesNonce_ne_errok (a : KeyAuths) (purpose : Purpose)
    (bm : BlockMode) (pad : Padding) (p : BeginParams) (e : KmError) :
    resolveAesNonce a purpose bm pad p = .error e → e ≠ .ok := by
  unfold resolveAesNonce
  intro h
  repeat' split at h
  all_goals first
    | (simp_all; done)
    | (cases h; simp)
    | (injection h with hh; cases hh; simp)

theorem resolveAesCrypt_ne_errok (a : KeyAuths) (purpose : Purpose)
    (p : BeginParams) (e : KmError) :
    resolveAesCrypt a purpose p = .error e → e ≠ .ok := by
  unfold resolveAesCrypt
  intro h
  repeat' split at h
  all_goals first
    | (simp_all; done)
    | (cases h; simp)
    | (injection h with hh; cases hh; simp)
    | exact resolveAesNonce_ne_errok _ _ _ _ _ _ h

theorem resolveRsaSign_ne_errok (a : KeyAuths) (p : BeginParams)
    (e : KmError) : resolveRsaSign a p = .error e → e ≠ .ok := by
  unfold resolveRsaSign
  intro h
  repeat' split at h
  all_goals first
    | (simp_all; done)
    | (cases h; simp)
    | (injection h with hh; cases hh; simp)

theorem resolveRsaCrypt_ne_errok (a : KeyAuths) (p : BeginParams)
    (e : KmError) : resolveRsaCrypt a p = .error e → e ≠ .ok := by
  unfold resolveRsaCrypt
  intro h
  repeat' split at h
  all_goals first
    | (simp_all; done)
    | (cases h; simp)
    | (injection h with hh; cases hh; simp)

theorem resolveEcSign_ne_errok (a : KeyAuths) (p : BeginParams)
    (e : KmError) : resolveEcSign a p = .error e → e ≠ .ok := by
  unfold resolveEcSign
  intro h
  repeat' split at h
  all_goals first
    | (simp_all; done)
    | (cases h; simp)
    | (injection h with hh; cases hh; simp)

theorem resolveHmacSign_ne_errok (a : KeyAuths) (p : BeginParams)
    (e : KmError) : resolveHmacSign a p = .error e → e ≠ .ok := by
  unfold resolveHmacSign
  intro h
  repeat' split at h
  all_goals first
    | (simp_all; done)
    | (cases h; simp)
    | (injection h with hh; cases hh; simp)

theorem resolveBegin_ne_errok (key : KeyObj) (purpose : Purpose)
    (p : BeginParams) (e : KmError) :
    resolveBegin key purpose p = .error e → e ≠ .ok := by
  unfold resolveBegin
  intro h
  split at h
  · split at h
    all_goals first
      | (simp_all; done)
      | (cases h; simp)
      | (injection h with hh; cases hh; simp)
      | exact resolveRsaSign_ne_errok _ _ _ h
      | exact resolveRsaCrypt_ne_errok _ _ _ h
      | exact resolveEcSign_ne_errok _ _ _ h
      | exact resolveHmacSign_ne_errok _ _ _ h
      | exact resolveAesCrypt_ne_errok _ _ _ _ h
  · first
    | (simp_all; done)
    | (cases h; simp)
    | (injection h with hh; cases hh; simp)

theorem beginOp_ok_table (st : KmState) (key : KeyObj) (purpose : Purpose)
    (p : BeginParams) (hok : (beginOp st key purpose p).error = .ok) :
    ∃ op, (beginOp st key purpose p).handle = st.nextHandle ∧
      (beginOp st key purpose p).st.table = (st.nextHandle, op) :: st.table := by
  cases hr : resolveBegin key purpose p with
  | error e =>
    exact absurd (by simpa [beginOp, hr] using hok)
      (resolveBegin_ne_errok key purpose p e hr)
  | ok r =>
    by_cases hful : st.table.length ≥ 16
    · exfalso
      simp [beginOp, hr, hful] at hok
    · exact ⟨⟨purpose, key, r.digest, r.padding, r.blockMode, r.macLength,
        (match r.nonceSpec with
          | some nv => nv
          | none =>
            if r.blockMode.isSome ∧ purpose = .encrypt then
              genNonce (nonceLenFor (r.blockMode.getD .cbc)) st.rngCounter
            else []), [], [], none⟩,
        by simp [beginOp, hr, hful], by simp [beginOp, hr, hful]⟩

theorem abort_twice_of_table (st : KmState) (h : Nat) (op : OpState)
    (rest : List (Nat × OpState)) (htab : st.table = (h, op) :: rest)
    (hrest : rest.lookup h = none) :
    (abortOp st h).1 = .ok ∧
    (abortOp (abortOp st h).2 h).1 = .invalidOperationHandle := by
  unfold abortOp removeOp
  rw [htab]
  simp [List.lookup, List.eraseP_cons, hrest]

/-! ## Lemmas about the GCM flows -/

theorem set_ne_self (l : List Nat) (i v : Nat) (hi : i < l.length)
    (hv : v ≠ l.getD i 0) : l.set i v ≠ l := by
  intro he
  apply hv
  have h1 : (l.set i v)[i]? = some v := List.getElem?_set_eq hi
  rw [he, List.getElem?_eq_getElem hi] at h1
  rw [List.getD_eq_getElem l 0 hi]
  exact (Option.some.inj h1).symm

theorem gcmTag_inj {k L : Nat} {n a c n2 a2 c2 : List Nat}
    (h : gcmTag k n a c L = gcmTag k n2 a2 c2 L) :
    n = n2 ∧ a = a2 ∧ c = c2 := by
  unfold gcmTag at h
  have h2 := (List.append_inj h (by simp)).2
  simp only [List.cons.injEq, and_true] at h2
  obtain ⟨-, hx⟩ := Nat.pair_eq_pair.mp h2
  obtain ⟨hn, hx⟩ := Nat.pair_eq_pair.mp hx
  obtain ⟨ha, hc⟩ := Nat.pair_eq_pair.mp hx
  exact ⟨encL_injective hn, encL_injective ha, encL_injective hc⟩

theorem gcmTag_length (k L : Nat) (n a c : List Nat) (hL : 1 ≤ L) :
    (gcmTag k n a c L).length = L := by
  simp [gcmTag]
  omega

theorem gcmEncrypt_spec (a : KeyAuths) (kb aad msg : List Nat)
    (halg : a.algorithm = .aes) (hep : .encrypt ∈ a.purposes)
    (hbm : .gcm ∈ a.blockModes) (hpad : .pnone ∈ a.paddings) :
    gcmEncrypt ⟨a, .aesMat kb⟩ aad msg =
      ⟨.ok, xorKs (streamOf ⟨a, .aesMat kb⟩ (genNonce 12 0)) 0 msg,
        some (genNonce 12 0),
        some (gcmTag (KeyMaterial.aesMat kb).keyId (genNonce 12 0) aad
          (xorKs (streamOf ⟨a, .aesMat kb⟩ (genNonce 12 0)) 0 msg) 16)⟩ := by
  simp [gcmEncrypt, runOnce, beginOp, resolveBegin, resolveAesCrypt,
    resolveAesNonce, gcmBeginParams, halg, hep, hbm, hpad, initState,
    aesValidPads, nonceLenFor, updateOp, stepUpdate,
    stepUpdate.stepUpdateGcm, List.lookup, replaceOp, removeOp, finishOp,
    stepFinish, stepFinishEncrypt, opStream, opTagBytes, Except.map]

theorem gcmDecrypt_error (a : KeyAuths) (kb nonce aad ct tag : List Nat)
    (halg : a.algorithm = .aes) (hdp : .decrypt ∈ a.purposes)
    (hbm : .gcm ∈ a.blockModes) (hpad : .pnone ∈ a.paddings)
    (hlen : tag.length = 16) :
    (gcmDecrypt ⟨a, .aesMat kb⟩ nonce aad ct tag).error =
      if tag = gcmTag (KeyMaterial.aesMat kb).keyId nonce aad ct 16 then
        .ok
      else .verificationFailed := by
  by_cases htag :
      tag = gcmTag (KeyMaterial.aesMat kb).keyId nonce aad ct 16 <;>
    simp [gcmDecrypt, runOnce, beginOp, resolveBegin, resolveAesCrypt,
      resolveAesNonce, gcmBeginParams, halg, hdp, hbm, hpad, initState,
      aesValidPads, nonceLenFor, updateOp, stepUpdate,
      stepUpdate.stepUpdateGcm, List.lookup, replaceOp, removeOp, finishOp,
      stepFinish, stepFinishDecrypt, opStream, opTagBytes, Except.map,
      gcmTag_length, hlen, htag]

theorem gcmDecSteps_spec (a : KeyAuths) (kb nonce aad ct tag : List Nat)
    (halg : a.algorithm = .aes) (hdp : .decrypt ∈ a.purposes)
    (hbm : .gcm ∈ a.blockModes) (hpad : .pnone ∈ a.paddings)
    (hlen : tag.length = 16) :
    (gcmDecUpdate ⟨a, .aesMat kb⟩ nonce aad ct tag).error = .ok ∧
    (gcmDecUpdate ⟨a, .aesMat kb⟩ nonce aad ct tag).output =
      xorKs (streamOf ⟨a, .aesMat kb⟩ nonce) 0 ct ∧
    (gcmDecFinish ⟨a, .aesMat kb⟩ nonce aad ct tag).error =
      (if tag = gcmTag (KeyMaterial.aesMat kb).keyId nonce aad ct 16 then
        .ok
      else .verificationFailed) := by
  refine ⟨?_, ?_, ?_⟩
  · simp [gcmDecUpdate, gcmDecBegin, beginOp, resolveBegin,
      resolveAesCrypt, resolveAesNonce, gcmBeginParams, halg, hdp, hbm,
      hpad, initState, aesValidPads, nonceLenFor, updateOp, stepUpdate,
      stepUpdate.stepUpdateGcm, List.lookup, replaceOp, removeOp,
      opStream, Except.map, hlen]
  · simp [gcmDecUpdate, gcmDecBegin, beginOp, resolveBegin,
      resolveAesCrypt, resolveAesNonce, gcmBeginParams, halg, hdp, hbm,
      hpad, initState, aesValidPads, nonceLenFor, updateOp, stepUpdate,
      stepUpdate.stepUpdateGcm, List.lookup, replaceOp, removeOp,
      opStream, Except.map, hlen]
  · by_cases htag :
        tag = gcmTag (KeyMaterial.aesMat kb).keyId nonce aad ct 16 <;>
      simp [gcmDecFinish, gcmDecUpdate, gcmDecBegin, beginOp, resolveBegin,
        resolveAesCrypt, resolveAesNonce, gcmBeginParams, halg, hdp, hbm,
        hpad, initState, aesValidPads, nonceLenFor, updateOp, stepUpdate,
        stepUpdate.stepUpdateGcm, List.lookup, replaceOp, removeOp, finishOp,
        stepFinish, stepFinishDecrypt, opStream, opTagBytes, Except.map,
        gcmTag_length, hlen, htag]

/-! ## Lemmas about the blob codec -/

theorem take_set_of_le (l : List Nat) (j m a : Nat) (h : m ≤ j) :
    (l.set j a).take m = l.take m := by
  apply List.ext_getElem?
  intro k
  by_cases hk : k < m
  · rw [List.getElem?_take, List.getElem?_take, if_pos hk, if_pos hk,
      List.getElem?_set_ne (by omega)]
  · rw [List.getElem?_take, List.getElem?_take, if_neg hk, if_neg hk]

theorem slice_set_of_lt (l : List Nat) (j k m a : Nat) (h : j < k) :
    ((l.set j a).drop k).take m = (l.drop k).take m := by
  rw [List.drop_set_of_lt a l h]

theorem slice_set_of_ge (l : List Nat) (j k m a : Nat) (h : k + m ≤ j) :
    ((l.set j a).drop k).take m = (l.drop k).take m := by
  apply List.ext_getElem?
  intro t
  by_cases ht : t < m
  · rw [List.getElem?_take, List.getElem?_take, if_pos ht, if_pos ht,
      List.getElem?_drop, List.getElem?_drop,
      List.getElem?_set_ne (by omega)]
  · rw [List.getElem?_take, List.getElem?_take, if_neg ht, if_neg ht]

theorem le32_length (n : Nat) : (le32 n).length = 4 := rfl

theorem fromLe32_le32 (n : Nat) (h : n < 2 ^ 32) :
    fromLe32 (le32 n) = n := by
  simp only [le32, fromLe32]
  omega

theorem le32_inj (n m : Nat) (hn : n < 2 ^ 32) (hm : m < 2 ^ 32)
    (h : le32 n = le32 m) : n = m := by
  have h2 := congrArg fromLe32 h
  rwa [fromLe32_le32 n hn, fromLe32_le32 m hm] at h2

theorem le32_fromLe32 (lb : List Nat) (hlen : lb.length = 4)
    (hb : ∀ x ∈ lb, x < 256) : le32 (fromLe32 lb) = lb := by
  match lb, hlen with
  | [a, b, c, d], _ =>
    have ha := hb a (by simp)
    have hbb := hb b (by simp)
    have hcc := hb c (by simp)
    have hdd := hb d (by simp)
    simp only [le32, fromLe32, List.cons.injEq, and_true]
    refine ⟨?_, ?_, ?_, ?_⟩ <;> omega

theorem fromLe32_lt (lb : List Nat) (hlen : lb.length = 4)
    (hb : ∀ x ∈ lb, x < 256) : fromLe32 lb < 2 ^ 32 := by
  match lb, hlen with
  | [a, b, c, d], _ =>
    have ha := hb a (by simp)
    have hbb := hb b (by simp)
    have hcc := hb c (by simp)
    have hdd := hb d (by simp)
    simp only [fromLe32]
    omega

theorem blobTag_inj {m : Nat} {n a c n2 a2 c2 : List Nat}
    (h : blobTag m n a c = blobTag m n2 a2 c2) :
    n = n2 ∧ a = a2 ∧ c = c2 := by
  unfold blobTag at h
  have h2 := (List.append_inj h (by simp)).2
  simp only [List.cons.injEq, and_true] at h2
  obtain ⟨-, hx⟩ := Nat.pair_eq_pair.mp h2
  obtain ⟨hn, hx⟩ := Nat.pair_eq_pair.mp hx
  obtain ⟨ha, hc⟩ := Nat.pair_eq_pair.mp hx
  exact ⟨encL_injective hn, encL_injective ha, encL_injective hc⟩

theorem encodeBlob_drop2 (p : BlobParts) :
    (encodeBlob p).drop 2 =
      p.nonce ++ (p.tag ++ (le32 p.ct.length ++ (p.ct ++ p.authBytes))) :=
  rfl

theorem encodeBlob_drop14 (p : BlobParts) (h12 : p.nonce.length = 12) :
    (encodeBlob p).drop 14 =
      p.tag ++ (le32 p.ct.length ++ (p.ct ++ p.authBytes)) := by
  rw [show (14 : Nat) = 2 + 12 from rfl, ← List.drop_drop, encodeBlob_drop2,
    List.drop_left' h12]

theorem encodeBlob_drop30 (p : BlobParts) (h12 : p.nonce.length = 12)
    (h16 : p.tag.length = 16) :
    (encodeBlob p).drop 30 = le32 p.ct.length ++ (p.ct ++ p.authBytes) := by
  rw [show (30 : Nat) = 14 + 16 from rfl, ← List.drop_drop,
    encodeBlob_drop14 p h12, List.drop_left' h16]

theorem encodeBlob_drop34 (p : BlobParts) (h12 : p.nonce.length = 12)
    (h16 : p.tag.length = 16) :
    (encodeBlob p).drop 34 = p.ct ++ p.authBytes := by
  rw [show (34 : Nat) = 30 + 4 from rfl, ← List.drop_drop,
    encodeBlob_drop30 p h12 h16, List.drop_left' (le32_length _)]

theorem encodeBlob_nonce_slice (p : BlobParts) (h12 : p.nonce.length = 12) :
    ((encodeBlob p).drop 2).take 12 = p.nonce := by
  rw [encodeBlob_drop2]
  exact List.take_left' h12

theorem encodeBlob_tag_slice (p : BlobParts) (h12 : p.nonce.length = 12)
    (h16 : p.tag.length = 16) :
    ((encodeBlob p).drop 14).take 16 = p.tag := by
  rw [encodeBlob_drop14 p h12]
  exact List.take_left' h16

theorem encodeBlob_len_slice (p : BlobParts) (h12 : p.nonce.length = 12)
    (h16 : p.tag.length = 16) :
    ((encodeBlob p).drop 30).take 4 = le32 p.ct.length := by
  rw [encodeBlob_drop30 p h12 h16]
  exact List.take_left' (le32_length _)

theorem encodeBlob_ct_slice (p : BlobParts) (h12 : p.nonce.length = 12)
    (h16 : p.tag.length = 16) :
    ((encodeBlob p).drop 34).take p.ct.length = p.ct := by
  rw [encodeBlob_drop34 p h12 h16]
  exact List.take_left' rfl

theorem encodeBlob_auth_slice (p : BlobParts) (h12 : p.nonce.length = 12)
    (h16 : p.tag.length = 16) :
    (encodeBlob p).drop (34 + p.ct.length) = p.authBytes := by
  rw [← List.drop_drop, encodeBlob_drop34 p h12 h16, List.drop_left' rfl]

theorem decodeBlob_canonical (b : List Nat) (p : BlobParts)
    (h : decodeBlob b = some p) :
    b = encodeBlob p ∧ p.nonce.length = 12 ∧ p.tag.length = 16 ∧
      p.ct.length < 2 ^ 32 := by
  match b with
  | [] => simp [decodeBlob] at h
  | [m] => simp [decodeBlob] at h
  | m :: v :: rest =>
    rw [decodeBlob] at h
    split_ifs at h with h1 h2 h3
    obtain ⟨hm, hv, hlen⟩ := h1
    have hdig : ∀ x ∈ (rest.drop 28).take 4, x < 256 := by
      intro x hx
      have := List.all_eq_true.mp h2 x hx
      simpa using this
    have hdiglen : ((rest.drop 28).take 4).length = 4 := by
      simp [List.length_take, List.length_drop]
      omega
    obtain rfl := Option.some.inj h
    refine ⟨?_, ?_, ?_, ?_⟩
    · show m :: v :: rest = encodeBlob _
      rw [hm, hv]
      unfold encodeBlob
      simp only [List.cons.injEq, true_and]
      have hctlen : ((rest.drop 32).take
          (fromLe32 ((rest.drop 28).take 4))).length =
          fromLe32 ((rest.drop 28).take 4) := by
        rw [List.length_take]
        exact Nat.min_eq_left h3
      rw [hctlen, le32_fromLe32 _ hdiglen hdig, List.take_append_drop,
        show (32 : Nat) = 28 + 4 from rfl, ← List.drop_drop,
        List.take_append_drop,
        show (28 : Nat) = 12 + 16 from rfl, ← List.drop_drop,
        List.take_append_drop, List.take_append_drop]
    · simp [List.length_take]
      omega
    · simp [List.length_take, List.length_drop]
      omega
    · have h4 := fromLe32_lt _ hdiglen hdig
      simp [List.length_take]
      omega

theorem flipBit_eq_set (bs : List Nat) (i : Nat) :
    flipBit bs i = bs.set (i / 8) (bs.getD (i / 8) 0 ^^^ 2 ^ (i % 8)) :=
  rfl

theorem xor_two_pow_ne (x k : Nat) : x ^^^ 2 ^ k ≠ x := by
  intro h
  have h2 : x ^^^ (x ^^^ 2 ^ k) = x ^^^ x := congrArg (fun t => x ^^^ t) h
  rw [← Nat.xor_assoc, Nat.xor_self, Nat.zero_xor] at h2
  exact absurd h2 (pow_ne_zero k (by norm_num))

theorem flipBit_ne (bs : List Nat) (i : Nat) (hi : i < 8 * bs.length) :
    flipBit bs i ≠ bs := by
  have hj : i / 8 < bs.length := by omega
  intro he
  have h1 : (bs.set (i / 8) (bs.getD (i / 8) 0 ^^^ 2 ^ (i % 8)))[i / 8]? =
      some (bs.getD (i / 8) 0 ^^^ 2 ^ (i % 8)) := List.getElem?_set_eq hj
  rw [flipBit_eq_set] at he
  rw [he, List.getElem?_eq_getElem hj] at h1
  rw [List.getD_eq_getElem bs 0 hj] at h1
  exact xor_two_pow_ne _ _ (Option.some.inj h1).symm

theorem blobTag_length16 (m : Nat) (n a c : List Nat) :
    (blobTag m n a c).length = 16 := by
  simp [blobTag]

theorem unsealKeyBlob_flip (master : Nat) (nonce authBytes km : List Nat)
    (i : Nat) (hn : nonce.length = 12) (hk : km.length < 2 ^ 32)
    (hi : i < 8 * (sealKeyBlob master nonce authBytes km).length) :
    unsealKeyBlob master (flipBit (sealKeyBlob master nonce authBytes km) i)
      = .error .invalidKeyBlob := by
  set ct0 := xorKs (blobStream master nonce) 0 km with hct0
  set p0 : BlobParts :=
    ⟨nonce, blobTag master nonce authBytes ct0, ct0, authBytes⟩ with hp0
  have hb : sealKeyBlob master nonce authBytes km = encodeBlob p0 := rfl
  have h12p0 : p0.nonce.length = 12 := hn
  have h16p0 : p0.tag.length = 16 := blobTag_length16 _ _ _ _
  have hct0lt : p0.ct.length < 2 ^ 32 := by
    show ct0.length < 2 ^ 32
    rw [hct0, xorKs_length]
    exact hk
  set j := i / 8 with hjdef
  set v := (encodeBlob p0).getD j 0 ^^^ 2 ^ (i % 8) with hv
  have hflip : flipBit (sealKeyBlob master nonce authBytes km) i =
      (encodeBlob p0).set j v := by
    rw [hb, flipBit_eq_set]
  have hne : (encodeBlob p0).set j v ≠ encodeBlob p0 := by
    have h5 := flipBit_ne (sealKeyBlob master nonce authBytes km) i hi
    rwa [hflip, hb] at h5
  rw [hflip]
  cases hd : decodeBlob ((encodeBlob p0).set j v) with
  | none => simp [unsealKeyBlob, hd]
  | some q =>
    obtain ⟨hbq, hq12, hq16, hqlt⟩ := decodeBlob_canonical _ _ hd
    by_cases hcheck : q.tag = blobTag master q.nonce q.authBytes q.ct
    · exfalso
      by_cases hjt : 14 ≤ j ∧ j < 30
      · -- the flipped byte lies in the tag slice: every other field
        -- of the parse agrees with the sealed blob
        have e1 : q.nonce = nonce := by
          calc q.nonce
              = ((encodeBlob q).drop 2).take 12 :=
                (encodeBlob_nonce_slice q hq12).symm
            _ = (((encodeBlob p0).set j v).drop 2).take 12 := by rw [hbq]
            _ = ((encodeBlob p0).drop 2).take 12 :=
                slice_set_of_ge _ j 2 12 v (by omega)
            _ = p0.nonce := encodeBlob_nonce_slice p0 h12p0
        have e2len : q.ct.length = p0.ct.length := by
          have l1 : le32 q.ct.length = le32 p0.ct.length := by
            calc le32 q.ct.length
                = ((encodeBlob q).drop 30).take 4 :=
                  (encodeBlob_len_slice q hq12 hq16).symm
              _ = (((encodeBlob p0).set j v).drop 30).take 4 := by rw [hbq]
              _ = ((encodeBlob p0).drop 30).take 4 :=
                  slice_set_of_lt _ j 30 4 v (by omega)
              _ = le32 p0.ct.length := encodeBlob_len_slice p0 h12p0 h16p0
          exact le32_inj _ _ hqlt hct0lt l1
        have e2 : q.ct = ct0 := by
          calc q.ct
              = ((encodeBlob q).drop 34).take q.ct.length :=
                (encodeBlob_ct_slice q hq12 hq16).symm
            _ = (((encodeBlob p0).set j v).drop 34).take q.ct.length := by
                rw [hbq]
            _ = ((encodeBlob p0).drop 34).take q.ct.length :=
                slice_set_of_lt _ j 34 _ v (by omega)
            _ = ((encodeBlob p0).drop 34).take p0.ct.length := by rw [e2len]
            _ = p0.ct := encodeBlob_ct_slice p0 h12p0 h16p0
        have e3 : q.authBytes = authBytes := by
          calc q.authBytes
              = (encodeBlob q).drop (34 + q.ct.length) :=
                (encodeBlob_auth_slice q hq12 hq16).symm
            _ = ((encodeBlob p0).set j v).drop (34 + q.ct.length) := by
                rw [hbq]
            _ = (encodeBlob p0).drop (34 + q.ct.length) :=
                List.drop_set_of_lt v _ (by omega)
            _ = (encodeBlob p0).drop (34 + p0.ct.length) := by rw [e2len]
            _ = p0.authBytes := encodeBlob_auth_slice p0 h12p0 h16p0
        have e4 : q.tag = p0.tag := by
          rw [hcheck, e1, e2, e3]
        have hqp : q = p0 := by
          calc q = ⟨q.nonce, q.tag, q.ct, q.authBytes⟩ := rfl
            _ = p0 := by rw [e1, e4, e2, e3]
        exact hne (hbq.trans (congrArg encodeBlob hqp))
      · -- the flipped byte lies outside the tag slice: the parsed tag
        -- agrees with the sealed one, and the authenticator pins the
        -- remaining fields
        have e4 : q.tag = p0.tag := by
          calc q.tag
              = ((encodeBlob q).drop 14).take 16 :=
                (encodeBlob_tag_slice q hq12 hq16).symm
            _ = (((encodeBlob p0).set j v).drop 14).take 16 := by rw [hbq]
            _ = ((encodeBlob p0).drop 14).take 16 := by
                rcases (by omega : j < 14 ∨ 30 ≤ j) with hc | hc
                · exact slice_set_of_lt _ j 14 16 v hc
                · exact slice_set_of_ge _ j 14 16 v (by omega)
            _ = p0.tag := encodeBlob_tag_slice p0 h12p0 h16p0
        have hbt : blobTag master q.nonce q.authBytes q.ct =
            blobTag master nonce authBytes ct0 := by
          rw [← hcheck, e4]
        obtain ⟨en, ea, ec⟩ := blobTag_inj hbt
        have hqp : q = p0 := by
          calc q = ⟨q.nonce, q.tag, q.ct, q.authBytes⟩ := rfl
            _ = p0 := by rw [en, ea, ec, e4]
        exact hne (hbq.trans (congrArg encodeBlob hqp))
    · simp [unsealKeyBlob, hd, hcheck]

/-! ## Lemmas about the round-trip flows -/

theorem replicate_getLast? (n a : Nat) (h : n ≠ 0) :
    (List.replicate n a).getLast? = some a := by
  cases n with
  | zero => exact absurd rfl h
  | succ q =>
    rw [List.getLast?_eq_getLast _ (by simp), List.getLast_replicate]

theorem pkcs7Pad_length (m : List Nat) :
    (pkcs7Pad m).length = m.length + (16 - m.length % 16) := by
  simp [pkcs7Pad]

theorem pkcs7Pad_getLast? (m : List Nat) :
    (pkcs7Pad m).getLast? = some (16 - m.length % 16) := by
  unfold pkcs7Pad
  rw [List.getLast?_append_of_ne_nil _ (by simp; omega)]
  exact replicate_getLast? _ _ (by omega)

theorem pkcs7Unpad_pad (m : List Nat) : pkcs7Unpad (pkcs7Pad m) = some m := by
  unfold pkcs7Unpad
  rw [pkcs7Pad_getLast?, pkcs7Pad_length]
  simp only [Option.getD_some]
  have hdrop : (pkcs7Pad m).drop
      (m.length + (16 - m.length % 16) - (16 - m.length % 16)) =
      List.replicate (16 - m.length % 16) (16 - m.length % 16) := by
    rw [show m.length + (16 - m.length % 16) - (16 - m.length % 16) =
      m.length from by omega]
    unfold pkcs7Pad
    exact List.drop_left' rfl
  rw [hdrop, if_pos]
  · rw [show m.length + (16 - m.length % 16) - (16 - m.length % 16) =
      m.length from by omega]
    unfold pkcs7Pad
    rw [List.take_left' rfl]
  · refine ⟨by omega, by omega, by omega, ?_⟩
    simp [List.all_eq_true, List.mem_replicate]

theorem signVerify_rsa_none (a : KeyAuths) (bits e modulus : Nat)
    (msg : List Nat) (halg : a.algorithm = .rsa)
    (hs : Purpose.sign ∈ a.purposes) (hv : Purpose.verify ∈ a.purposes)
    (hd : Digest.dnone ∈ a.digests) (hpk : Padding.pnone ∈ a.paddings)
    (hlen : msg.length = bits / 8) (hnum : beNum msg < modulus) :
    signVerifyFlow ⟨a, .rsaMat bits e modulus⟩ (signParams .pnone .dnone)
      msg = .ok := by
  simp [signVerifyFlow, runOnce, signParams, beginOp, resolveBegin,
    resolveRsaSign, halg, hs, hv, hd, hpk, initState, updateOp, stepUpdate,
    replaceOp, List.lookup, finishOp, stepFinish, stepFinishSign,
    stepFinishVerify, removeOp, Except.map, hlen, hnum]

theorem signVerify_rsa_pkcs1 (a : KeyAuths) (bits e modulus : Nat)
    (d : Digest) (msg : List Nat) (halg : a.algorithm = .rsa)
    (hs : Purpose.sign ∈ a.purposes) (hv : Purpose.verify ∈ a.purposes)
    (hd : d ∈ a.digests) (hpk : Padding.rsaPkcs1Sign ∈ a.paddings)
    (hifc : ¬(d = .dnone ∧ bits / 8 < msg.length + 11)) :
    signVerifyFlow ⟨a, .rsaMat bits e modulus⟩
      (signParams .rsaPkcs1Sign d) msg = .ok := by
  simp [signVerifyFlow, runOnce, signParams, beginOp, resolveBegin,
    resolveRsaSign, halg, hs, hv, hd, hpk, initState, updateOp, stepUpdate,
    replaceOp, List.lookup, finishOp, stepFinish, stepFinishSign,
    stepFinishVerify, removeOp, Except.map, hifc]

theorem signVerify_rsa_pss (a : KeyAuths) (bits e modulus : Nat)
    (d : Digest) (msg : List Nat) (halg : a.algorithm = .rsa)
    (hs : Purpose.sign ∈ a.purposes) (hv : Purpose.verify ∈ a.purposes)
    (hd : d ∈ a.digests) (hpk : Padding.rsaPss ∈ a.paddings)
    (hdn : d ≠ .dnone) (hsz : digestBytes d + 10 ≤ a.keySizeBits / 8) :
    signVerifyFlow ⟨a, .rsaMat bits e modulus⟩ (signParams .rsaPss d) msg
      = .ok := by
  simp [signVerifyFlow, runOnce, signParams, beginOp, resolveBegin,
    resolveRsaSign, halg, hs, hv, hd, hpk, hdn, Nat.not_lt.mpr hsz,
    initState, updateOp, stepUpdate, replaceOp, List.lookup, finishOp,
    stepFinish, stepFinishSign, stepFinishVerify, removeOp, Except.map]

theorem signVerify_ec (a : KeyAuths) (c s : Nat) (d : Digest)
    (msg : List Nat) (halg : a.algorithm = .ec)
    (hs : Purpose.sign ∈ a.purposes) (hv : Purpose.verify ∈ a.purposes)
    (hd : d ∈ a.digests) :
    signVerifyFlow ⟨a, .ecMat c s⟩ (signParams .pnone d) msg = .ok := by
  simp [signVerifyFlow, runOnce, signParams, beginOp, resolveBegin,
    resolveEcSign, halg, hs, hv, hd, initState, updateOp, stepUpdate,
    replaceOp, List.lookup, finishOp, stepFinish, stepFinishSign,
    stepFinishVerify, removeOp, Except.map]

theorem signVerify_hmac (a : KeyAuths) (kb : List Nat) (d : Digest)
    (msg : List Nat) (halg : a.algorithm = .hmac)
    (hs : Purpose.sign ∈ a.purposes) (hv : Purpose.verify ∈ a.purposes)
    (hd : d ∈ a.digests) :
    signVerifyFlow ⟨a, .hmacMat kb⟩ (signParams .pnone d) msg = .ok := by
  simp [signVerifyFlow, runOnce, signParams, beginOp, resolveBegin,
    resolveHmacSign, halg, hs, hv, hd, initState, updateOp, stepUpdate,
    replaceOp, List.lookup, finishOp, stepFinish, stepFinishSign,
    stepFinishVerify, removeOp, Except.map, hmacFull, digestBytes]

theorem encDec_rsa_none (a : KeyAuths) (bits e n : Nat)
    (aad msg : List Nat) (halg : a.algorithm = .rsa)
    (hep : Purpose.encrypt ∈ a.purposes) (hdp : Purpose.decrypt ∈ a.purposes)
    (hpk : Padding.pnone ∈ a.paddings) (hlen : msg.length = bits / 8) :
    encDecFlow ⟨a, .rsaMat bits e n⟩ (encParams none .pnone) aad msg
      = (.ok, msg) := by
  simp [encDecFlow, runOnce, encParams, beginOp, resolveBegin,
    resolveRsaCrypt, halg, hep, hdp, hpk, initState, updateOp, stepUpdate,
    replaceOp, List.lookup, finishOp, stepFinish, stepFinishEncrypt,
    stepFinishDecrypt, removeOp, Except.map, opStream, hlen, xorKs_length,
    xorKs_xorKs]

theorem encDec_rsa_oaep (a : KeyAuths) (bits e n : Nat)
    (aad msg : List Nat) (halg : a.algorithm = .rsa)
    (hep : Purpose.encrypt ∈ a.purposes) (hdp : Purpose.decrypt ∈ a.purposes)
    (hpk : Padding.rsaOaep ∈ a.paddings)
    (hlen : msg.length + 2 * digestBytes .sha1 + 2 ≤ bits / 8) :
    encDecFlow ⟨a, .rsaMat bits e n⟩ (encParams none .rsaOaep) aad msg
      = (.ok, msg) := by
  simp [encDecFlow, runOnce, encParams, beginOp, resolveBegin,
    resolveRsaCrypt, halg, hep, hdp, hpk, initState, updateOp, stepUpdate,
    replaceOp, List.lookup, finishOp, stepFinish, stepFinishEncrypt,
    stepFinishDecrypt, removeOp, Except.map, opStream, hlen, xorKs_length,
    xorKs_xorKs]

theorem encDec_rsa_pkcs1 (a : KeyAuths) (bits e n : Nat)
    (aad msg : List Nat) (halg : a.algorithm = .rsa)
    (hep : Purpose.encrypt ∈ a.purposes) (hdp : Purpose.decrypt ∈ a.purposes)
    (hpk : Padding.rsaPkcs1Encrypt ∈ a.paddings)
    (hlen : msg.length + 11 ≤ bits / 8) :
    encDecFlow ⟨a, .rsaMat bits e n⟩ (encParams none .rsaPkcs1Encrypt)
      aad msg = (.ok, msg) := by
  simp [encDecFlow, runOnce, encParams, beginOp, resolveBegin,
    resolveRsaCrypt, halg, hep, hdp, hpk, initState, updateOp, stepUpdate,
    replaceOp, List.lookup, finishOp, stepFinish, stepFinishEncrypt,
    stepFinishDecrypt, removeOp, Except.map, opStream, hlen, xorKs_length,
    xorKs_xorKs]

theorem encDec_aes_ecb_none (a : KeyAuths) (kb aad msg : List Nat)
    (halg : a.algorithm = .aes) (hep : Purpose.encrypt ∈ a.purposes)
    (hdp : Purpose.decrypt ∈ a.purposes) (hbm : BlockMode.ecb ∈ a.blockModes)
    (hpk : Padding.pnone ∈ a.paddings) (hlen : msg.length % 16 = 0) :
    encDecFlow ⟨a, .aesMat kb⟩ (encParams (some .ecb) .pnone) aad msg
      = (.ok, msg) := by
  simp [encDecFlow, runOnce, encParams, beginOp, resolveBegin,
    resolveAesCrypt, resolveAesNonce, aesValidPads, nonceLenFor, halg, hep,
    hdp, hbm, hpk, initState, updateOp, stepUpdate, replaceOp, List.lookup,
    finishOp, stepFinish, stepFinishEncrypt, stepFinishDecrypt, removeOp,
    Except.map, opStream, hlen, xorKs_length, xorKs_xorKs]

theorem encDec_aes_cbc_none (a : KeyAuths) (kb aad msg : List Nat)
    (halg : a.algorithm = .aes) (hep : Purpose.encrypt ∈ a.purposes)
    (hdp : Purpose.decrypt ∈ a.purposes) (hbm : BlockMode.cbc ∈ a.blockModes)
    (hpk : Padding.pnone ∈ a.paddings) (hlen : msg.length % 16 = 0) :
    encDecFlow ⟨a, .aesMat kb⟩ (encParams (some .cbc) .pnone) aad msg
      = (.ok, msg) := by
  simp [encDecFlow, runOnce, encParams, beginOp, resolveBegin,
    resolveAesCrypt, resolveAesNonce, aesValidPads, nonceLenFor, halg, hep,
    hdp, hbm, hpk, initState, updateOp, stepUpdate, replaceOp, List.lookup,
    finishOp, stepFinish, stepFinishEncrypt, stepFinishDecrypt, removeOp,
    Except.map, opStream, hlen, xorKs_length, xorKs_xorKs]

theorem encDec_aes_ecb_pkcs7 (a : KeyAuths) (kb aad msg : List Nat)
    (halg : a.algorithm = .aes) (hep : Purpose.encrypt ∈ a.purposes)
    (hdp : Purpose.decrypt ∈ a.purposes) (hbm : BlockMode.ecb ∈ a.blockModes)
    (hpk : Padding.pkcs7 ∈ a.paddings) :
    encDecFlow ⟨a, .aesMat kb⟩ (encParams (some .ecb) .pkcs7) aad msg
      = (.ok, msg) := by
  simp [encDecFlow, runOnce, encParams, beginOp, resolveBegin,
    resolveAesCrypt, resolveAesNonce, aesValidPads, nonceLenFor, halg, hep,
    hdp, hbm, hpk, initState, updateOp, stepUpdate, replaceOp, List.lookup,
    finishOp, stepFinish, stepFinishEncrypt, stepFinishDecrypt, removeOp,
    Except.map, opStream, xorKs_xorKs, pkcs7Unpad_pad]

theorem encDec_aes_cbc_pkcs7 (a : KeyAuths) (kb aad msg : List Nat)
    (halg : a.algorithm = .aes) (hep : Purpose.encrypt ∈ a.purposes)
    (hdp : Purpose.decrypt ∈ a.purposes) (hbm : BlockMode.cbc ∈ a.blockModes)
    (hpk : Padding.pkcs7 ∈ a.paddings) :
    encDecFlow ⟨a, .aesMat kb⟩ (encParams (some .cbc) .pkcs7) aad msg
      = (.ok, msg) := by
  simp [encDecFlow, runOnce, encParams, beginOp, resolveBegin,
    resolveAesCrypt, resolveAesNonce, aesValidPads, nonceLenFor, halg, hep,
    hdp, hbm, hpk, initState, updateOp, stepUpdate, replaceOp, List.lookup,
    finishOp, stepFinish, stepFinishEncrypt, stepFinishDecrypt, removeOp,
    Except.map, opStream, xorKs_xorKs, pkcs7Unpad_pad]

theorem encDec_aes_ctr_none (a : KeyAuths) (kb aad msg : List Nat)
    (halg : a.algorithm = .aes) (hep : Purpose.encrypt ∈ a.purposes)
    (hdp : Purpose.decrypt ∈ a.purposes) (hbm : BlockMode.ctr ∈ a.blockModes)
    (hpk : Padding.pnone ∈ a.paddings) :
    encDecFlow ⟨a, .aesMat kb⟩ (encParams (some .ctr) .pnone) aad msg
      = (.ok, msg) := by
  simp [encDecFlow, runOnce, encParams, beginOp, resolveBegin,
    resolveAesCrypt, resolveAesNonce, aesValidPads, nonceLenFor, halg, hep,
    hdp, hbm, hpk, initState, updateOp, stepUpdate, replaceOp, List.lookup,
    finishOp, stepFinish, stepFinishEncrypt, stepFinishDecrypt, removeOp,
    Except.map, opStream, xorKs_xorKs]

theorem encDec_aes_gcm_none (a : KeyAuths) (kb aad msg : List Nat)
    (halg : a.algorithm = .aes) (hep : Purpose.encrypt ∈ a.purposes)
    (hdp : Purpose.decrypt ∈ a.purposes) (hbm : BlockMode.gcm ∈ a.blockModes)
    (hpk : Padding.pnone ∈ a.paddings) :
    encDecFlow ⟨a, .aesMat kb⟩ (encParams (some .gcm) .pnone) aad msg
      = (.ok, msg) := by
  simp [encDecFlow, runOnce, encParams, beginOp, resolveBegin,
    resolveAesCrypt, resolveAesNonce, aesValidPads, nonceLenFor, halg, hep,
    hdp, hbm, hpk, initState, updateOp, stepUpdate,
    stepUpdate.stepUpdateGcm, replaceOp, List.lookup, finishOp, stepFinish,
    stepFinishEncrypt, stepFinishDecrypt, removeOp, Except.map, opStream,
    opTagBytes, gcmTag_length, xorKs_length, xorKs_xorKs]

/-! ## Claim theorems -/

/-- C4: for every key whose authorization set does not contain the
requested purpose, `begin` with that purpose fails with
`incompatible-purpose`, whatever the algorithm and the other begin
parameters. -/
theorem c4_begin_purpose_check (st : KmState) (key : KeyObj)
    (purpose : Purpose) (p : BeginParams)
    (h : purpose ∉ key.auths.purposes) :
    (beginOp st key purpose p).error = .incompatiblePurpose := by
  simp [beginOp, resolveBegin, h]

/-- Witness for C4: `begin(sign)` on an RSA encryption-only key. -/
theorem c4_begin_purpose_check_witness :
    Purpose.sign ∉ ([.encrypt, .decrypt] : List Purpose) ∧
    (beginOp initState
        ⟨⟨.rsa, 256, 3, [.encrypt, .decrypt], [.dnone], [.pnone], [], false⟩,
          .rsaMat 256 3 97⟩ .sign
        ⟨some .dnone, some .pnone, none, none, none⟩).error
      = .incompatiblePurpose :=
  ⟨by decide, c4_begin_purpose_check _ _ _ _ (by decide)⟩

/-- C9: after a successful `begin` (from any state in which the next
handle is fresh), a first `abort` on the returned handle succeeds and
removes the table entry, so a second `abort` on the same handle
returns `invalid-operation-handle`. -/
theorem c9_abort_then_abort (st : KmState) (key : KeyObj)
    (purpose : Purpose) (p : BeginParams)
    (hfresh : st.table.lookup st.nextHandle = none)
    (hok : (beginOp st key purpose p).error = .ok) :
    (abortOp (beginOp st key purpose p).st
        (beginOp st key purpose p).handle).1 = .ok ∧
    (abortOp (abortOp (beginOp st key purpose p).st
          (beginOp st key purpose p).handle).2
        (beginOp st key purpose p).handle).1 = .invalidOperationHandle := by
  obtain ⟨op, hh, ht⟩ := beginOp_ok_table st key purpose p hok
  rw [hh]
  exact abort_twice_of_table _ _ op st.table ht hfresh

/-- Witness for C9: begin/abort/abort on an RSA signing key from the
fresh service state. -/
theorem c9_abort_then_abort_witness :
    initState.table.lookup initState.nextHandle = none ∧
    (beginOp initState
        ⟨⟨.rsa, 256, 3, [.sign, .verify], [.dnone], [.pnone], [], false⟩,
          .rsaMat 256 3 97⟩ .sign
        ⟨some .dnone, some .pnone, none, none, none⟩).error = .ok ∧
    ((abortOp (beginOp initState
        ⟨⟨.rsa, 256, 3, [.sign, .verify], [.dnone], [.pnone], [], false⟩,
          .rsaMat 256 3 97⟩ .sign
        ⟨some .dnone, some .pnone, none, none, none⟩).st
        (beginOp initState
        ⟨⟨.rsa, 256, 3, [.sign, .verify], [.dnone], [.pnone], [], false⟩,
          .rsaMat 256 3 97⟩ .sign
        ⟨some .dnone, some .pnone, none, none, none⟩).handle).1 = .ok ∧
    (abortOp (abortOp (beginOp initState
        ⟨⟨.rsa, 256, 3, [.sign, .verify], [.dnone], [.pnone], [], false⟩,
          .rsaMat 256 3 97⟩ .sign
        ⟨some .dnone, some .pnone, none, none, none⟩).st
          (beginOp initState
        ⟨⟨.rsa, 256, 3, [.sign, .verify], [.dnone], [.pnone], [], false⟩,
          .rsaMat 256 3 97⟩ .sign
        ⟨some .dnone, some .pnone, none, none, none⟩).handle).2
        (beginOp initState
        ⟨⟨.rsa, 256, 3, [.sign, .verify], [.dnone], [.pnone], [], false⟩,
          .rsaMat 256 3 97⟩ .sign
        ⟨some .dnone, some .pnone, none, none, none⟩).handle).1
      = .invalidOperationHandle) :=
  ⟨by decide, by decide, c9_abort_then_abort _ _ _ _ (by decide) (by decide)⟩

/-- C5 counterexample: `begin(sign)` on an HMAC-SHA-256 key with a
requested MAC length of 264 bits returns OK, not
`unsupported-mac-length`: the claim places the check at begin, the
code places it at finish. -/
theorem c5_counterexample :
    (beginOp initState
        ⟨⟨.hmac, 128, 0, [.sign, .verify], [.sha256], [], [], false⟩,
          .hmacMat [1, 2, 3]⟩ .sign
        ⟨some .sha256, none, none, some 264, none⟩).error = .ok ∧
    (beginOp initState
        ⟨⟨.hmac, 128, 0, [.sign, .verify], [.sha256], [], [], false⟩,
          .hmacMat [1, 2, 3]⟩ .sign
        ⟨some .sha256, none, none, some 264, none⟩).error
      ≠ .unsupportedMacLength := by
  constructor <;> decide

/-- C5 (amended): for an HMAC key, a requested MAC length exceeding
the digest's natural output length passes `begin` and is rejected at
`finish` with `unsupported-mac-length`. -/
theorem c5_hmac_mac_length_at_finish (a : KeyAuths) (kb : List Nat)
    (d : Digest) (ml : Nat) (msg : List Nat)
    (halg : a.algorithm = .hmac) (hp : .sign ∈ a.purposes)
    (hd : d ∈ a.digests) (hml : digestBits d < ml) :
    (beginOp initState ⟨a, .hmacMat kb⟩ .sign
        ⟨some d, none, none, some ml, none⟩).error = .ok ∧
    (runOnce ⟨a, .hmacMat kb⟩ .sign ⟨some d, none, none, some ml, none⟩
        ⟨[], none⟩ msg none).error = .unsupportedMacLength := by
  constructor
  · simp [beginOp, resolveBegin, resolveHmacSign, halg, hp, hd, initState]
  · simp [runOnce, beginOp, resolveBegin, resolveHmacSign, halg, hp, hd,
      initState, updateOp, stepUpdate, replaceOp, List.lookup, finishOp,
      stepFinish, stepFinishSign, removeOp, Except.map, hml]

/-- Witness for the amended C5: HMAC-SHA-256, MAC length 264 bits. -/
theorem c5_hmac_mac_length_at_finish_witness :
    KeyAuths.algorithm
        ⟨.hmac, 128, 0, [.sign, .verify], [.sha256], [], [], false⟩ = .hmac ∧
    Purpose.sign ∈ ([.sign, .verify] : List Purpose) ∧
    Digest.sha256 ∈ ([.sha256] : List Digest) ∧
    digestBits .sha256 < 264 ∧
    (runOnce
        ⟨⟨.hmac, 128, 0, [.sign, .verify], [.sha256], [], [], false⟩,
          .hmacMat [1, 2, 3]⟩ .sign
        ⟨some .sha256, none, none, some 264, none⟩ ⟨[], none⟩
        [9, 8, 7] none).error = .unsupportedMacLength :=
  ⟨by decide, by decide, by decide, by decide,
    (c5_hmac_mac_length_at_finish _ [1, 2, 3] _ 264 [9, 8, 7]
      (by decide) (by decide) (by decide) (by decide)).2⟩

/-- C6: `begin(sign)` with PSS padding on an RSA key whose size is
below digest-bytes + 10 fails with `incompatible-digest`. -/
theorem c6_pss_key_too_small (st : KmState) (key : KeyObj) (d : Digest)
    (p : BeginParams)
    (hp : .sign ∈ key.auths.purposes)
    (halg : key.auths.algorithm = .rsa)
    (hpadk : .rsaPss ∈ key.auths.paddings)
    (hdk : d ∈ key.auths.digests) (hdn : d ≠ .dnone)
    (hsize : key.auths.keySizeBits / 8 < digestBytes d + 10)
    (hbd : p.digest = some d) (hbp : p.padding = some .rsaPss) :
    (beginOp st key .sign p).error = .incompatibleDigest := by
  simp [beginOp, resolveBegin, resolveRsaSign, halg, hp, hbp, hbd, hpadk,
    hdk, hdn, hsize]

/-- Witness for C6: a 328-bit (256 + 9·8) RSA-PSS key with SHA-256,
one byte short of the digest + 10 bound. -/
theorem c6_pss_key_too_small_witness :
    Purpose.sign ∈ ([.sign, .verify] : List Purpose) ∧
    (328 / 8 < digestBytes .sha256 + 10) ∧
    (beginOp initState
        ⟨⟨.rsa, 328, 3, [.sign, .verify], [.sha256], [.rsaPss], [], false⟩,
          .rsaMat 328 3 97⟩ .sign
        ⟨some .sha256, some .rsaPss, none, none, none⟩).error
      = .incompatibleDigest :=
  ⟨by decide, by decide,
    c6_pss_key_too_small initState
      ⟨⟨.rsa, 328, 3, [.sign, .verify], [.sha256], [.rsaPss], [], false⟩,
        .rsaMat 328 3 97⟩ .sha256
      ⟨some .sha256, some .rsaPss, none, none, none⟩ (by decide) (by decide)
      (by decide) (by decide) (by decide) (by decide) (by decide)
      (by decide)⟩

/-- C7: importing a PKCS#8 RSA key whose declared key size or public
exponent disagrees with the values re-derived from the key material
fails with `import-parameter-mismatch`. -/
theorem c7_import_parameter_mismatch (declared : KeyAuths)
    (material : List Nat) (bits e n d : Nat)
    (halg : declared.algorithm = .rsa)
    (hdec : decodeRsaPk8 material = some (bits, e, n, d))
    (hmis : declared.keySizeBits ≠ bits ∨ declared.rsaPublicExponent ≠ e) :
    importKey declared .pkcs8 material = .error .importParameterMismatch := by
  rcases hmis with hm | hm
  · simp [importKey, halg, hdec, hm]
  · by_cases hk : declared.keySizeBits = bits
    · simp [importKey, halg, hdec, hk, hm]
    · simp [importKey, halg, hdec, hk]

/-- Witness for C7: material encoding a 1024-bit key imported with a
declared key size of 2048 bits. -/
theorem c7_import_parameter_mismatch_witness :
    decodeRsaPk8 [48, 1024, 65537, 91, 11] = some (1024, 65537, 91, 11) ∧
    (2048 ≠ 1024 ∨ 65537 ≠ 65537) ∧
    importKey ⟨.rsa, 2048, 65537, [.sign, .verify], [.dnone], [.pnone], [],
        false⟩ .pkcs8 [48, 1024, 65537, 91, 11]
      = .error .importParameterMismatch :=
  ⟨by decide, by decide,
    c7_import_parameter_mismatch _ _ 1024 65537 91 11 (by decide)
      (by decide) (by decide)⟩

/-- C8: for RSA sign with digest NONE and padding NONE, a message
shorter than the key byte length is fully consumed by `update`, which
emits no output; the length rule is enforced only at `finish`, which
fails with `unknown-error` and emits no signature. -/
theorem c8_rsa_none_lazy_length (a : KeyAuths) (bits e n : Nat)
    (msg : List Nat)
    (halg : a.algorithm = .rsa) (hp : .sign ∈ a.purposes)
    (hpadk : .pnone ∈ a.paddings) (hdk : .dnone ∈ a.digests)
    (hlen : msg.length < bits / 8) :
    (beginOp initState ⟨a, .rsaMat bits e n⟩ .sign
        ⟨some .dnone, some .pnone, none, none, none⟩).error = .ok ∧
    (updateOp (beginOp initState ⟨a, .rsaMat bits e n⟩ .sign
          ⟨some .dnone, some .pnone, none, none, none⟩).st
        (beginOp initState ⟨a, .rsaMat bits e n⟩ .sign
          ⟨some .dnone, some .pnone, none, none, none⟩).handle
        ⟨[], none⟩ msg).error = .ok ∧
    (updateOp (beginOp initState ⟨a, .rsaMat bits e n⟩ .sign
          ⟨some .dnone, some .pnone, none, none, none⟩).st
        (beginOp initState ⟨a, .rsaMat bits e n⟩ .sign
          ⟨some .dnone, some .pnone, none, none, none⟩).handle
        ⟨[], none⟩ msg).consumed = msg.length ∧
    (updateOp (beginOp initState ⟨a, .rsaMat bits e n⟩ .sign
          ⟨some .dnone, some .pnone, none, none, none⟩).st
        (beginOp initState ⟨a, .rsaMat bits e n⟩ .sign
          ⟨some .dnone, some .pnone, none, none, none⟩).handle
        ⟨[], none⟩ msg).output = [] ∧
    (finishOp (updateOp (beginOp initState ⟨a, .rsaMat bits e n⟩ .sign
            ⟨some .dnone, some .pnone, none, none, none⟩).st
          (beginOp initState ⟨a, .rsaMat bits e n⟩ .sign
            ⟨some .dnone, some .pnone, none, none, none⟩).handle
          ⟨[], none⟩ msg).st
        (beginOp initState ⟨a, .rsaMat bits e n⟩ .sign
          ⟨some .dnone, some .pnone, none, none, none⟩).handle
        none).error = .unknownError ∧
    (finishOp (updateOp (beginOp initState ⟨a, .rsaMat bits e n⟩ .sign
            ⟨some .dnone, some .pnone, none, none, none⟩).st
          (beginOp initState ⟨a, .rsaMat bits e n⟩ .sign
            ⟨some .dnone, some .pnone, none, none, none⟩).handle
          ⟨[], none⟩ msg).st
        (beginOp initState ⟨a, .rsaMat bits e n⟩ .sign
          ⟨some .dnone, some .pnone, none, none, none⟩).handle
        none).output = [] := by
  refine ⟨?_, ?_, ?_, ?_, ?_, ?_⟩ <;>
    simp [beginOp, resolveBegin, resolveRsaSign, halg, hp, hpadk, hdk,
      initState, updateOp, stepUpdate, replaceOp, List.lookup, finishOp,
      stepFinish, stepFinishSign, removeOp, Except.map, Nat.ne_of_lt hlen]

/-- C1: for every (algorithm, mode, padding) configuration in the
supported surface and every message valid for it, sign followed by
verify succeeds, and encrypt followed by decrypt with the returned
nonce (and, for AEAD, tag) recovers the plaintext exactly. -/
theorem c1_supported_roundtrips :
    (∀ (a : KeyAuths) (mat : KeyMaterial) (pad : Padding) (d : Digest)
        (msg : List Nat), SignValid a mat pad d msg →
      signVerifyFlow ⟨a, mat⟩ (signParams pad d) msg = .ok) ∧
    (∀ (a : KeyAuths) (mat : KeyMaterial) (bm : Option BlockMode)
        (pad : Padding) (aad msg : List Nat), EncValid a mat bm pad msg →
      encDecFlow ⟨a, mat⟩ (encParams bm pad) aad msg = (.ok, msg)) := by
  constructor
  · intro a mat pad d msg hval
    obtain ⟨hs, hv, hd, hrest⟩ := hval
    cases mat with
    | rsaMat bits e modulus =>
      cases halg : a.algorithm <;> simp only [halg] at hrest
      obtain ⟨hbits, hpadsup, hpadk, hdsup, hc1, hc2, hc3⟩ := hrest
      have hpl : pad ∈ ([.pnone, .rsaPkcs1Sign, .rsaPss] : List Padding) :=
        hpadsup
      fin_cases hpl
      · obtain ⟨rfl, hlen, hnum⟩ := hc1 rfl
        exact signVerify_rsa_none a bits e modulus msg halg hs hv hd hpadk
          hlen hnum
      · refine signVerify_rsa_pkcs1 a bits e modulus d msg halg hs hv hd
          hpadk ?_
        rintro ⟨rfl, hlt⟩
        exact absurd (hc2 rfl rfl) (by omega)
      · obtain ⟨hdn, hsz⟩ := hc3 rfl
        exact signVerify_rsa_pss a bits e modulus d msg halg hs hv hd hpadk
          hdn (hbits ▸ hsz)
    | ecMat c s =>
      cases halg : a.algorithm <;> simp only [halg] at hrest
      obtain ⟨rfl, hdsup⟩ := hrest
      exact signVerify_ec a c s d msg halg hs hv hd
    | aesMat kb =>
      cases halg : a.algorithm <;> simp only [halg] at hrest
    | hmacMat kb =>
      cases halg : a.algorithm <;> simp only [halg] at hrest
      obtain ⟨rfl, hdsup⟩ := hrest
      exact signVerify_hmac a kb d msg halg hs hv hd
  · intro a mat bm pad aad msg hval
    obtain ⟨hep, hdp, hrest⟩ := hval
    cases mat with
    | rsaMat bits e n =>
      cases bm with
      | none =>
        cases halg : a.algorithm <;> simp only [halg] at hrest
        obtain ⟨hbits, hpadsup, hpadk, hc1, hc2, hc3⟩ := hrest
        have hpl : pad ∈
            ([.pnone, .rsaOaep, .rsaPkcs1Encrypt] : List Padding) :=
          hpadsup
        fin_cases hpl
        · exact encDec_rsa_none a bits e n aad msg halg hep hdp hpadk
            (hc1 rfl)
        · exact encDec_rsa_oaep a bits e n aad msg halg hep hdp hpadk
            (hc2 rfl)
        · exact encDec_rsa_pkcs1 a bits e n aad msg halg hep hdp hpadk
            (hc3 rfl)
      | some bmode =>
        cases halg : a.algorithm <;> simp only [halg] at hrest
    | ecMat c s =>
      cases bm with
      | none => cases halg : a.algorithm <;> simp only [halg] at hrest
      | some bmode => cases halg : a.algorithm <;> simp only [halg] at hrest
    | hmacMat kb =>
      cases bm with
      | none => cases halg : a.algorithm <;> simp only [halg] at hrest
      | some bmode => cases halg : a.algorithm <;> simp only [halg] at hrest
    | aesMat kb =>
      cases bm with
      | none => cases halg : a.algorithm <;> simp only [halg] at hrest
      | some bmode =>
        cases halg : a.algorithm <;> simp only [halg] at hrest
        obtain ⟨hbmsup, hbmk, hpadsup, hpadv, hpadk, hcond⟩ := hrest
        cases bmode with
        | ecb =>
          have hpl : pad ∈ ([.pnone, .pkcs7] : List Padding) := hpadv
          fin_cases hpl
          · exact encDec_aes_ecb_none a kb aad msg halg hep hdp hbmk hpadk
              (hcond rfl (Or.inl rfl))
          · exact encDec_aes_ecb_pkcs7 a kb aad msg halg hep hdp hbmk hpadk
        | cbc =>
          have hpl : pad ∈ ([.pnone, .pkcs7] : List Padding) := hpadv
          fin_cases hpl
          · exact encDec_aes_cbc_none a kb aad msg halg hep hdp hbmk hpadk
              (hcond rfl (Or.inr rfl))
          · exact encDec_aes_cbc_pkcs7 a kb aad msg halg hep hdp hbmk hpadk
        | ctr =>
          have hpl : pad ∈ ([.pnone] : List Padding) := hpadv
          fin_cases hpl
          exact encDec_aes_ctr_none a kb aad msg halg hep hdp hbmk hpadk
        | gcm =>
          have hpl : pad ∈ ([.pnone] : List Padding) := hpadv
          fin_cases hpl
          exact encDec_aes_gcm_none a kb aad msg halg hep hdp hbmk hpadk

/-- Witness for C1: a raw RSA sign/verify round trip and a GCM
encrypt/decrypt round trip at concrete inputs. -/
theorem c1_supported_roundtrips_witness :
    SignValid ⟨.rsa, 32, 3, [.sign, .verify], [.dnone], [.pnone], [], false⟩
      (.rsaMat 32 3 4000000000) .pnone .dnone [1, 2, 3, 4] ∧
    signVerifyFlow
      ⟨⟨.rsa, 32, 3, [.sign, .verify], [.dnone], [.pnone], [], false⟩,
        .rsaMat 32 3 4000000000⟩ (signParams .pnone .dnone) [1, 2, 3, 4]
      = .ok ∧
    EncValid ⟨.aes, 128, 0, [.encrypt, .decrypt], [], [.pnone], [.gcm],
        false⟩ (.aesMat [7]) (some .gcm) .pnone [1, 2, 3] ∧
    encDecFlow
      ⟨⟨.aes, 128, 0, [.encrypt, .decrypt], [], [.pnone], [.gcm], false⟩,
        .aesMat [7]⟩ (encParams (some .gcm) .pnone) [5] [1, 2, 3]
      = (.ok, [1, 2, 3]) := by
  have hsv : SignValid
      ⟨.rsa, 32, 3, [.sign, .verify], [.dnone], [.pnone], [], false⟩
      (.rsaMat 32 3 4000000000) .pnone .dnone [1, 2, 3, 4] :=
    ⟨by decide, by decide, by decide, rfl, by decide, by decide, by decide,
      fun _ => ⟨rfl, by decide, by decide⟩, by decide, by decide⟩
  have hev : EncValid
      ⟨.aes, 128, 0, [.encrypt, .decrypt], [], [.pnone], [.gcm], false⟩
      (.aesMat [7]) (some .gcm) .pnone [1, 2, 3] :=
    ⟨by decide, by decide, by decide, by decide, by decide, by decide,
      by decide, by decide⟩
  exact ⟨hsv, c1_supported_roundtrips.1 _ _ _ _ _ hsv, hev,
    c1_supported_roundtrips.2 _ _ _ _ _ _ hev⟩

/-- C2: toggling any single bit of a sealed key blob makes the next
operation that references the blob (here: export) fail with
`invalid-key-blob`. -/
theorem c2_blob_bit_flip (master : Nat) (nonce authBytes km : List Nat)
    (i : Nat) (hn : nonce.length = 12) (hk : km.length < 2 ^ 32)
    (hi : i < 8 * (sealKeyBlob master nonce authBytes km).length) :
    exportKey master .x509
        (flipBit (sealKeyBlob master nonce authBytes km) i)
      = .error .invalidKeyBlob := by
  have h := unsealKeyBlob_flip master nonce authBytes km i hn hk hi
  simp [exportKey, h]

/-- Witness for C2: flipping bit 0 of a concrete sealed blob. -/
theorem c2_blob_bit_flip_witness :
    (List.replicate 12 0 : List Nat).length = 12 ∧
    ([3, 4] : List Nat).length < 2 ^ 32 ∧
    0 < 8 * (sealKeyBlob 5 (List.replicate 12 0) [1, 2] [3, 4]).length ∧
    exportKey 5 .x509
        (flipBit (sealKeyBlob 5 (List.replicate 12 0) [1, 2] [3, 4]) 0)
      = .error .invalidKeyBlob :=
  ⟨by decide, by decide, by decide,
    c2_blob_bit_flip 5 (List.replicate 12 0) [1, 2] [3, 4] 0 (by decide)
      (by decide) (by decide)⟩

/-- C3: for an AES-GCM encrypt/decrypt pair, replacing any single
byte of the ciphertext, of the associated data, of the authenticator
tag, or of the nonce with a different value makes `finish` on the
decrypt operation return `verification-failed`. -/
theorem c3_gcm_single_byte_corruption (a : KeyAuths)
    (kb aad msg : List Nat) (i v : Nat)
    (halg : a.algorithm = .aes) (hep : .encrypt ∈ a.purposes)
    (hdp : .decrypt ∈ a.purposes) (hbm : .gcm ∈ a.blockModes)
    (hpad : .pnone ∈ a.paddings) :
    (i < (gcmEncrypt ⟨a, .aesMat kb⟩ aad msg).output.length →
      v ≠ (gcmEncrypt ⟨a, .aesMat kb⟩ aad msg).output.getD i 0 →
      (gcmDecrypt ⟨a, .aesMat kb⟩
          ((gcmEncrypt ⟨a, .aesMat kb⟩ aad msg).outNonce.getD []) aad
          ((gcmEncrypt ⟨a, .aesMat kb⟩ aad msg).output.set i v)
          ((gcmEncrypt ⟨a, .aesMat kb⟩ aad msg).outTag.getD [])).error
        = .verificationFailed) ∧
    (i < aad.length → v ≠ aad.getD i 0 →
      (gcmDecrypt ⟨a, .aesMat kb⟩
          ((gcmEncrypt ⟨a, .aesMat kb⟩ aad msg).outNonce.getD [])
          (aad.set i v) (gcmEncrypt ⟨a, .aesMat kb⟩ aad msg).output
          ((gcmEncrypt ⟨a, .aesMat kb⟩ aad msg).outTag.getD [])).error
        = .verificationFailed) ∧
    (i < ((gcmEncrypt ⟨a, .aesMat kb⟩ aad msg).outTag.getD []).length →
      v ≠ ((gcmEncrypt ⟨a, .aesMat kb⟩ aad msg).outTag.getD []).getD i 0 →
      (gcmDecrypt ⟨a, .aesMat kb⟩
          ((gcmEncrypt ⟨a, .aesMat kb⟩ aad msg).outNonce.getD []) aad
          (gcmEncrypt ⟨a, .aesMat kb⟩ aad msg).output
          (((gcmEncrypt ⟨a, .aesMat kb⟩ aad msg).outTag.getD []).set i v)).error
        = .verificationFailed) ∧
    (i < ((gcmEncrypt ⟨a, .aesMat kb⟩ aad msg).outNonce.getD []).length →
      v ≠ ((gcmEncrypt ⟨a, .aesMat kb⟩ aad msg).outNonce.getD []).getD i 0 →
      (gcmDecrypt ⟨a, .aesMat kb⟩
          (((gcmEncrypt ⟨a, .aesMat kb⟩ aad msg).outNonce.getD []).set i v)
          aad (gcmEncrypt ⟨a, .aesMat kb⟩ aad msg).output
          ((gcmEncrypt ⟨a, .aesMat kb⟩ aad msg).outTag.getD [])).error
        = .verificationFailed) := by
  rw [gcmEncrypt_spec a kb aad msg halg hep hbm hpad]
  dsimp only
  simp only [Option.getD_some]
  refine ⟨?_, ?_, ?_, ?_⟩
  · intro hi hv
    refine (gcmDecrypt_error a kb _ _ _ _ halg hdp hbm hpad
      (gcmTag_length _ _ _ _ _ (by norm_num))).trans (if_neg ?_)
    intro hc
    obtain ⟨-, -, hcc⟩ := gcmTag_inj hc
    exact set_ne_self _ i v hi hv hcc.symm
  · intro hi hv
    refine (gcmDecrypt_error a kb _ _ _ _ halg hdp hbm hpad
      (gcmTag_length _ _ _ _ _ (by norm_num))).trans (if_neg ?_)
    intro hc
    obtain ⟨-, haa, -⟩ := gcmTag_inj hc
    exact set_ne_self _ i v hi hv haa.symm
  · intro hi hv
    refine (gcmDecrypt_error a kb _ _ _ _ halg hdp hbm hpad
      (by simp [List.length_set, gcmTag_length])).trans (if_neg ?_)
    intro hc
    exact set_ne_self _ i v hi hv hc
  · intro hi hv
    refine (gcmDecrypt_error a kb _ _ _ _ halg hdp hbm hpad
      (gcmTag_length _ _ _ _ _ (by norm_num))).trans (if_neg ?_)
    intro hc
    obtain ⟨hnn, -, -⟩ := gcmTag_inj hc
    exact set_ne_self _ i v hi hv hnn.symm

/-- Witness for C3: corrupting byte 0 of the ciphertext of a concrete
GCM encryption. -/
theorem c3_gcm_single_byte_corruption_witness :
    0 < (gcmEncrypt
        ⟨⟨.aes, 128, 0, [.encrypt, .decrypt], [], [.pnone], [.gcm], false⟩,
          .aesMat [7]⟩ [5, 6] [1, 2, 3]).output.length ∧
    (9 : Nat) ≠ (gcmEncrypt
        ⟨⟨.aes, 128, 0, [.encrypt, .decrypt], [], [.pnone], [.gcm], false⟩,
          .aesMat [7]⟩ [5, 6] [1, 2, 3]).output.getD 0 0 ∧
    (gcmDecrypt
        ⟨⟨.aes, 128, 0, [.encrypt, .decrypt], [], [.pnone], [.gcm], false⟩,
          .aesMat [7]⟩
        ((gcmEncrypt
          ⟨⟨.aes, 128, 0, [.encrypt, .decrypt], [], [.pnone], [.gcm], false⟩,
            .aesMat [7]⟩ [5, 6] [1, 2, 3]).outNonce.getD []) [5, 6]
        ((gcmEncrypt
          ⟨⟨.aes, 128, 0, [.encrypt, .decrypt], [], [.pnone], [.gcm], false⟩,
            .aesMat [7]⟩ [5, 6] [1, 2, 3]).output.set 0 9)
        ((gcmEncrypt
          ⟨⟨.aes, 128, 0, [.encrypt, .decrypt], [], [.pnone], [.gcm], false⟩,
            .aesMat [7]⟩ [5, 6] [1, 2, 3]).outTag.getD [])).error
      = .verificationFailed :=
  ⟨by decide, by decide,
    (c3_gcm_single_byte_corruption _ [7] [5, 6] [1, 2, 3] 0 9 (by decide)
      (by decide) (by decide) (by decide) (by decide)).1 (by decide)
      (by decide)⟩

/-- C10: on a GCM decrypt with tampered associated data or a
corrupted tag, `update` returns OK and releases the full decrypted
plaintext, equal to the original message, before `finish` reports
`verification-failed`. -/
theorem c10_gcm_update_releases_plaintext (a : KeyAuths)
    (kb aad msg aad2 tag2 : List Nat)
    (halg : a.algorithm = .aes) (hep : .encrypt ∈ a.purposes)
    (hdp : .decrypt ∈ a.purposes) (hbm : .gcm ∈ a.blockModes)
    (hpad : .pnone ∈ a.paddings) :
    (aad2 ≠ aad →
      (gcmDecUpdate ⟨a, .aesMat kb⟩
          ((gcmEncrypt ⟨a, .aesMat kb⟩ aad msg).outNonce.getD []) aad2
          (gcmEncrypt ⟨a, .aesMat kb⟩ aad msg).output
          ((gcmEncrypt ⟨a, .aesMat kb⟩ aad msg).outTag.getD [])).error
        = .ok ∧
      (gcmDecUpdate ⟨a, .aesMat kb⟩
          ((gcmEncrypt ⟨a, .aesMat kb⟩ aad msg).outNonce.getD []) aad2
          (gcmEncrypt ⟨a, .aesMat kb⟩ aad msg).output
          ((gcmEncrypt ⟨a, .aesMat kb⟩ aad msg).outTag.getD [])).output
        = msg ∧
      (gcmDecFinish ⟨a, .aesMat kb⟩
          ((gcmEncrypt ⟨a, .aesMat kb⟩ aad msg).outNonce.getD []) aad2
          (gcmEncrypt ⟨a, .aesMat kb⟩ aad msg).output
          ((gcmEncrypt ⟨a, .aesMat kb⟩ aad msg).outTag.getD [])).error
        = .verificationFailed) ∧
    (tag2.length = 16 →
      tag2 ≠ (gcmEncrypt ⟨a, .aesMat kb⟩ aad msg).outTag.getD [] →
      (gcmDecUpdate ⟨a, .aesMat kb⟩
          ((gcmEncrypt ⟨a, .aesMat kb⟩ aad msg).outNonce.getD []) aad
          (gcmEncrypt ⟨a, .aesMat kb⟩ aad msg).output tag2).error = .ok ∧
      (gcmDecUpdate ⟨a, .aesMat kb⟩
          ((gcmEncrypt ⟨a, .aesMat kb⟩ aad msg).outNonce.getD []) aad
          (gcmEncrypt ⟨a, .aesMat kb⟩ aad msg).output tag2).output = msg ∧
      (gcmDecFinish ⟨a, .aesMat kb⟩
          ((gcmEncrypt ⟨a, .aesMat kb⟩ aad msg).outNonce.getD []) aad
          (gcmEncrypt ⟨a, .aesMat kb⟩ aad msg).output tag2).error
        = .verificationFailed) := by
  rw [gcmEncrypt_spec a kb aad msg halg hep hbm hpad]
  dsimp only
  simp only [Option.getD_some]
  constructor
  · intro hne
    obtain ⟨h1, h2, h3⟩ := gcmDecSteps_spec a kb (genNonce 12 0) aad2
      (xorKs (streamOf ⟨a, .aesMat kb⟩ (genNonce 12 0)) 0 msg)
      (gcmTag (KeyMaterial.aesMat kb).keyId (genNonce 12 0) aad
        (xorKs (streamOf ⟨a, .aesMat kb⟩ (genNonce 12 0)) 0 msg) 16)
      halg hdp hbm hpad (gcmTag_length _ _ _ _ _ (by norm_num))
    refine ⟨h1, h2.trans (xorKs_xorKs _ _ _), h3.trans (if_neg ?_)⟩
    intro hc
    obtain ⟨-, haa, -⟩ := gcmTag_inj hc
    exact hne haa.symm
  · intro hlen2 hne
    obtain ⟨h1, h2, h3⟩ := gcmDecSteps_spec a kb (genNonce 12 0) aad
      (xorKs (streamOf ⟨a, .aesMat kb⟩ (genNonce 12 0)) 0 msg) tag2
      halg hdp hbm hpad hlen2
    exact ⟨h1, h2.trans (xorKs_xorKs _ _ _), h3.trans (if_neg hne)⟩

/-- Witness for C10: decrypting a concrete GCM ciphertext with
tampered associated data. -/
theorem c10_gcm_update_releases_plaintext_witness :
    ([6, 5] : List Nat) ≠ [5, 6] ∧
    (gcmDecUpdate
        ⟨⟨.aes, 128, 0, [.encrypt, .decrypt], [], [.pnone], [.gcm], false⟩,
          .aesMat [7]⟩
        ((gcmEncrypt
          ⟨⟨.aes, 128, 0, [.encrypt, .decrypt], [], [.pnone], [.gcm], false⟩,
            .aesMat [7]⟩ [5, 6] [1, 2, 3]).outNonce.getD []) [6, 5]
        (gcmEncrypt
          ⟨⟨.aes, 128, 0, [.encrypt, .decrypt], [], [.pnone], [.gcm], false⟩,
            .aesMat [7]⟩ [5, 6] [1, 2, 3]).output
        ((gcmEncrypt
          ⟨⟨.aes, 128, 0, [.encrypt, .decrypt], [], [.pnone], [.gcm], false⟩,
            .aesMat [7]⟩ [5, 6] [1, 2, 3]).outTag.getD [])).output
      = [1, 2, 3] ∧
    (gcmDecFinish
        ⟨⟨.aes, 128, 0, [.encrypt, .decrypt], [], [.pnone], [.gcm], false⟩,
          .aesMat [7]⟩
        ((gcmEncrypt
          ⟨⟨.aes, 128, 0, [.encrypt, .decrypt], [], [.pnone], [.gcm], false⟩,
            .aesMat [7]⟩ [5, 6] [1, 2, 3]).outNonce.getD []) [6, 5]
        (gcmEncrypt
          ⟨⟨.aes, 128, 0, [.encrypt, .decrypt], [], [.pnone], [.gcm], false⟩,
            .aesMat [7]⟩ [5, 6] [1, 2, 3]).output
        ((gcmEncrypt
          ⟨⟨.aes, 128, 0, [.encrypt, .decrypt], [], [.pnone], [.gcm], false⟩,
            .aesMat [7]⟩ [5, 6] [1, 2, 3]).outTag.getD [])).error
      = .verificationFailed :=
  ⟨by decide,
    ((c10_gcm_update_releases_plaintext _ [7] [5, 6] [1, 2, 3] [6, 5] []
        (by decide) (by decide) (by decide) (by decide) (by decide)).1
      (by decide)).2.1,
    ((c10_gcm_update_releases_plaintext _ [7] [5, 6] [1, 2, 3] [6, 5] []
        (by decide) (by decide) (by decide) (by decide) (by decide)).1
      (by decide)).2.2⟩

/-- Witness for C8: a 31-byte message under a 256-bit key. -/
theorem c8_rsa_none_lazy_length_witness :
    (List.replicate 31 49).length < 256 / 8 ∧
    (finishOp (updateOp (beginOp initState
          ⟨⟨.rsa, 256, 3, [.sign, .verify], [.dnone], [.pnone], [], false⟩,
            .rsaMat 256 3 97⟩ .sign
          ⟨some .dnone, some .pnone, none, none, none⟩).st
        (beginOp initState
          ⟨⟨.rsa, 256, 3, [.sign, .verify], [.dnone], [.pnone], [], false⟩,
            .rsaMat 256 3 97⟩ .sign
          ⟨some .dnone, some .pnone, none, none, none⟩).handle
        ⟨[], none⟩ (List.replicate 31 49)).st
      (beginOp initState
          ⟨⟨.rsa, 256, 3, [.sign, .verify], [.dnone], [.pnone], [], false⟩,
            .rsaMat 256 3 97⟩ .sign
          ⟨some .dnone, some .pnone, none, none, none⟩).handle
      none).error = .unknownError :=
  ⟨by decide,
    (c8_rsa_none_lazy_length _ 256 3 97 (List.replicate 31 49) (by decide)
      (by decide) (by decide) (by decide) (by decide)).2.2.2.2.1⟩

end Keymaster
